import Mathlib

/-!
Verification development for the `vibe-trader-agent` repository.

Python code is shallowly embedded into Lean:
* real-valued (Python `float`) arithmetic is modelled over `ℚ`;
* fallible code returns `Except`/`Option` values;
* external services (market-data provider, LLM, HTTP optimizer service,
  cloud storage) are modelled as explicit oracle parameters;
* Python dictionaries with a fixed key set become structures, and
  dictionary results whose key set varies become inductive result types.
-/

namespace VibeTrader

/-! ## `extract_tickers_data` (extraction_tools.py, lines 79­-133)

The input list may contain non-string entries (the source drops them with an
`isinstance(ticker, str)` check); an input entry is therefore modelled as
`Option String`, `none` standing for a non-string entry.
`validate_ticker_exists` is an external market-data call, modelled by the
oracle `ex : String → Bool`. -/

/-- Python `str.upper` on one character (ASCII range; the tickers the system
handles are ASCII symbols). -/
def pyUpperChar (c : Char) : Char :=
  if c.isLower then Char.ofNat (c.toNat - 32) else c

/-- Python `str.upper`. -/
def py_upper (s : String) : String := ⟨s.data.map pyUpperChar⟩

/-- Python `str.strip()`: remove leading and trailing whitespace. -/
def py_strip (s : String) : String :=
  ⟨((s.data.dropWhile Char.isWhitespace).reverse.dropWhile Char.isWhitespace).reverse⟩

/-- Python `repr` of a list of strings, as interpolated into the error
message by `f"... {valid_tickers} ..."`. -/
def pyListRepr (l : List String) : String :=
  "[" ++ String.intercalate ", " (l.map (fun s => "\x27" ++ s ++ "\x27")) ++ "]"

/-- The inner `validate_tickers` helper (lines 99-119): drop non-strings,
strip + upper-case, drop empties, keep symbols accepted by the market-data
existence check, then deduplicate.  The source deduplicates with
`list(set(validated_tickers))`, whose ordering CPython does not specify; it
is modelled as `List.dedup`, and theorems about the output are stated up to
membership. -/
def validate_tickers (ex : String → Bool) (ticker_list : List (Option String)) : List String :=
  let validated_tickers := ticker_list.filterMap (fun ticker =>
    match ticker with
    | none => none
    | some s =>
      let cleaned_ticker := py_upper (py_strip s)
      if cleaned_ticker = "" then none
      else if ex cleaned_ticker then some cleaned_ticker
      else none)
  validated_tickers.dedup

/-- Result of `extract_tickers_data`: either a dict with only a `tickers`
key, or a dict with only an `error` key. -/
inductive TickersResult where
  | tickers (ts : List String)
  | error (msg : String)
deriving DecidableEq

/-- `extract_tickers_data` (lines 79-133). -/
def extract_tickers_data (ex : String → Bool) (tickers : List (Option String)) :
    TickersResult :=
  let valid_tickers := validate_tickers ex tickers
  if 2 ≤ valid_tickers.length then
    TickersResult.tickers valid_tickers
  else
    TickersResult.error
      ("Insufficient valid tickers found. Need at least 2, got "
        ++ toString valid_tickers.length ++ " - " ++ pyListRepr valid_tickers
        ++ ". Please research additional assets for portfolio.")

/-- C2: `extract_tickers_data` drops non-strings, trims/upper-cases, drops
empties, keeps only symbols passing the existence check, deduplicates;
with ≥ 2 survivors it returns exactly the surviving set under the `tickers`
key, otherwise an `error` message reporting the survivor count. -/
theorem extract_tickers_data_correct (ex : String → Bool) (input : List (Option String)) :
    (validate_tickers ex input).Nodup
    ∧ (∀ s, s ∈ validate_tickers ex input ↔
        ∃ raw, some raw ∈ input ∧ py_upper (py_strip raw) = s ∧ s ≠ "" ∧ ex s = true)
    ∧ (2 ≤ (validate_tickers ex input).length →
        extract_tickers_data ex input = TickersResult.tickers (validate_tickers ex input))
    ∧ ((validate_tickers ex input).length < 2 →
        ∃ rest, extract_tickers_data ex input = TickersResult.error
          (("Insufficient valid tickers found. Need at least 2, got "
            ++ toString (validate_tickers ex input).length) ++ rest)) := by
  refine ⟨?_, ?_, ?_, ?_⟩
  · exact List.nodup_dedup _
  · intro s
    unfold validate_tickers
    simp only [List.mem_dedup, List.mem_filterMap]
    constructor
    · rintro ⟨o, ho, hf⟩
      match o with
      | none => simp at hf
      | some raw =>
        refine ⟨raw, ho, ?_⟩
        by_cases h1 : py_upper (py_strip raw) = ""
        · simp [h1] at hf
        · cases h2 : ex (py_upper (py_strip raw)) with
          | false => simp [h1, h2] at hf
          | true =>
            simp [h1, h2] at hf
            subst hf
            exact ⟨rfl, h1, h2⟩
    · rintro ⟨raw, hin, hclean, hne, hex⟩
      refine ⟨some raw, hin, ?_⟩
      subst hclean
      simp [hne, hex]
  · intro h
    unfold extract_tickers_data
    simp [h]
  · intro h
    unfold extract_tickers_data
    rw [if_neg (by omega)]
    exact ⟨" - " ++ pyListRepr (validate_tickers ex input)
      ++ ". Please research additional assets for portfolio.",
      by simp [String.append_assoc]⟩

/-- Witness for C2 at the concrete input `["aapl", "AAPL", "msft"]` of the
spec, with an oracle accepting both symbols: exactly `{"AAPL", "MSFT"}`
survives. -/
theorem extract_tickers_data_correct_witness :
    2 ≤ (validate_tickers (fun _ => true)
          [some "aapl", some "AAPL", some "msft"]).length
    ∧ extract_tickers_data (fun _ => true) [some "aapl", some "AAPL", some "msft"]
        = TickersResult.tickers (validate_tickers (fun _ => true)
            [some "aapl", some "AAPL", some "msft"])
    ∧ validate_tickers (fun _ => true) [some "aapl", some "AAPL", some "msft"]
        = ["AAPL", "MSFT"] :=
  ⟨by decide,
   (extract_tickers_data_correct (fun _ => true)
      [some "aapl", some "AAPL", some "msft"]).2.2.1 (by decide),
   by decide⟩

/-! ## `get_stock_historical_data` (finance_tools.py, lines 19-73)

Dates are modelled as integer day numbers; `datetime.now()` is the
parameter `today`, and `timedelta(days = n)` subtracts `n`.  The
`strftime`/string representation of dates is irrelevant to the logic and is
not modelled, and the `int(time_window)` coercion of a string-typed
`time_window` is likewise dropped (`time_window` enters as an integer).
One `yf.Ticker(t).history(...)` call is the oracle `fetch`, taking the
ticker and the resolved start/end dates. -/

/-- Outcome of one external per-ticker history fetch. -/
inductive FetchOutcome where
  | raises                   -- the fetch raised some exception
  | emptyFrame               -- `df.empty` was true
  | data (closes : List ℚ)   -- `df['Close'].tolist()`
deriving DecidableEq

/-- The value stored for a ticker in the result dict, as the spec words it:
an absent value for a failed or empty fetch, the closing prices otherwise. -/
def closesOf : FetchOutcome → Option (List ℚ)
  | .raises => none
  | .emptyFrame => none
  | .data closes => some closes

/-- `get_stock_historical_data` (lines 19-73).  The Python result dict is
modelled as an association list in ticker order (duplicate tickers would
collapse in the Python dict; theorems are stated per ticker). -/
def get_stock_historical_data (today : ℤ) (fetch : String → ℤ → ℤ → FetchOutcome)
    (tickers : List String) (time_window : ℤ) (window_type : String)
    (start_date : Option ℤ) (end_date : Option ℤ) :
    Except String (List (String × Option (List ℚ))) := do
  let end_date := match end_date with
    | none => today
    | some d => d
  let start_date ← match start_date with
    | some d => pure d
    | none =>
      if window_type = "days" then pure (today - time_window)
      else if window_type = "months" then pure (today - time_window * 30)
      else if window_type = "years" then pure (today - time_window * 365)
      else throw "Invalid window_type. Use \x27days\x27, \x27months\x27, or \x27years\x27"
  pure (tickers.map (fun ticker =>
    match fetch ticker start_date end_date with
    | .raises => (ticker, none)
    | .emptyFrame => (ticker, none)
    | .data closes => (ticker, some closes)))

/-- C6: date-range resolution of `get_stock_historical_data` (explicit dates
win, `end_date` defaults to today, absent `start_date` is computed from the
window type, an unrecognized window type raises) and per-ticker error
isolation (each ticker maps to its own fetch outcome, an absent value on
failure or empty data, independently of the other tickers). -/
theorem get_stock_historical_data_correct (today : ℤ)
    (fetch : String → ℤ → ℤ → FetchOutcome) (tickers : List String)
    (time_window : ℤ) (window_type : String) (end_date : Option ℤ) :
    (∀ s, get_stock_historical_data today fetch tickers time_window window_type
        (some s) end_date
      = .ok (tickers.map (fun t => (t, closesOf (fetch t s (end_date.getD today))))))
    ∧ (window_type = "days" →
        get_stock_historical_data today fetch tickers time_window window_type
          none end_date
        = .ok (tickers.map (fun t =>
            (t, closesOf (fetch t (today - time_window) (end_date.getD today))))))
    ∧ (window_type = "months" →
        get_stock_historical_data today fetch tickers time_window window_type
          none end_date
        = .ok (tickers.map (fun t =>
            (t, closesOf (fetch t (today - time_window * 30) (end_date.getD today))))))
    ∧ (window_type = "years" →
        get_stock_historical_data today fetch tickers time_window window_type
          none end_date
        = .ok (tickers.map (fun t =>
            (t, closesOf (fetch t (today - time_window * 365) (end_date.getD today))))))
    ∧ (window_type ≠ "days" → window_type ≠ "months" → window_type ≠ "years" →
        ∃ msg, get_stock_historical_data today fetch tickers time_window window_type
          none end_date = .error msg) := by
  have hmap : ∀ s e : ℤ,
      tickers.map (fun ticker =>
        match fetch ticker s e with
        | .raises => (ticker, (none : Option (List ℚ)))
        | .emptyFrame => (ticker, none)
        | .data closes => (ticker, some closes))
      = tickers.map (fun t => (t, closesOf (fetch t s e))) := by
    intro s e
    refine List.map_congr_left (fun t _ => ?_)
    cases fetch t s e <;> rfl
  refine ⟨?_, ?_, ?_, ?_, ?_⟩
  · intro s
    unfold get_stock_historical_data
    cases end_date <;> simp [hmap] <;> rfl
  · intro h
    unfold get_stock_historical_data
    cases end_date <;> simp [h, hmap] <;> rfl
  · intro h
    unfold get_stock_historical_data
    have : window_type ≠ "days" := by simp [h]
    cases end_date <;> simp [h, this, hmap] <;> rfl
  · intro h
    have h1 : window_type ≠ "days" := by simp [h]
    have h2 : window_type ≠ "months" := by simp [h]
    unfold get_stock_historical_data
    cases end_date <;> simp [h, h1, h2, hmap] <;> rfl
  · intro h1 h2 h3
    unfold get_stock_historical_data
    cases end_date <;> simp [h1, h2, h3, Bind.bind, Except.bind]

/-- Witness for C6: explicit start date wins; a raising ticker maps to an
absent value while the other ticker's data is returned. -/
theorem get_stock_historical_data_correct_witness :
    get_stock_historical_data 100
      (fun t _ _ => if t = "AAA" then FetchOutcome.data [1, 2] else FetchOutcome.raises)
      ["AAA", "BBB"] 30 "days" (some 5) none
    = .ok [("AAA", some [1, 2]), ("BBB", none)] := by
  rw [(get_stock_historical_data_correct 100
      (fun t _ _ => if t = "AAA" then FetchOutcome.data [1, 2] else FetchOutcome.raises)
      ["AAA", "BBB"] 30 "days" none).1 5]
  rfl

/-! ## `create_summary_table` (optimization/pdf_dashboard.py, lines 310-347)

The source takes one `results` dict holding an `inputs` and a `results`
sub-dict; only the numeric fields the table reads are modelled.  The
reportlab `Table` object is modelled as its `data` list of rows; the purely
visual `TableStyle` is not modelled. -/

/-- The `inputs` sub-dict fields read by the summary table. -/
structure OptimizerInputs where
  target_portfolio : ℚ
  sigma_max : ℚ
  max_drawdown : ℚ
  worst_day_limit : ℚ
  cash_min : ℚ

/-- The `results` sub-dict fields read by the summary table. -/
structure OptimizerResults where
  success_prob : ℚ
  avg_final : ℚ
  volatility : ℚ
  avg_drawdown : ℚ
  avg_worst_day : ℚ
  cash_allocation : ℚ

/-- The `{inputs, results}` structure produced by the optimizer. -/
structure OptimizationRun where
  inputs : OptimizerInputs
  results : OptimizerResults

/-- Model of the f-string `{x:.1%}` rendering.  The exact decimal text is
presentational and not at issue in any claim; the model renders the exact
rational. -/
def fmtPct1 (q : ℚ) : String := toString (mkRat (q.num * 100) q.den) ++ "%"

/-- Model of the f-string `${x:,.0f}` rendering (same caveat as `fmtPct1`). -/
def fmtMoney0 (q : ℚ) : String := "$" ++ toString q

/-- `create_summary_table` (lines 310-347), as its row data. -/
def create_summary_table (run : OptimizationRun) : List (List String) :=
  [["Metric", "Value", "Target/Limit", "Status"],
   ["Success Probability", fmtPct1 run.results.success_prob, "Maximize", "✓"],
   ["Expected Final Value", fmtMoney0 run.results.avg_final,
     fmtMoney0 run.inputs.target_portfolio,
     if run.results.avg_final ≥ run.inputs.target_portfolio then "✓" else "⚠"],
   ["Portfolio Volatility", fmtPct1 run.results.volatility,
     "≤ " ++ fmtPct1 run.inputs.sigma_max,
     if run.results.volatility ≤ run.inputs.sigma_max then "✓" else "⚠"],
   ["Average Drawdown", fmtPct1 run.results.avg_drawdown,
     "≤ " ++ fmtPct1 run.inputs.max_drawdown,
     if run.results.avg_drawdown ≤ run.inputs.max_drawdown then "✓" else "⚠"],
   ["Worst Day Drop", fmtPct1 run.results.avg_worst_day,
     "≤ " ++ fmtPct1 run.inputs.worst_day_limit,
     if run.results.avg_worst_day ≤ run.inputs.worst_day_limit then "✓" else "⚠"],
   ["Cash Allocation", fmtPct1 run.results.cash_allocation,
     "≥ " ++ fmtPct1 run.inputs.cash_min,
     if run.results.cash_allocation ≥ run.inputs.cash_min then "✓" else "⚠"]]

/-- A 4-entry table row ending in a conditional glyph ends in the pass glyph
iff the condition holds. -/
theorem glyph_eq_pass_iff (c : Prop) [Decidable c] :
    ((if c then "✓" else "⚠") = "✓") ↔ c := by
  split <;> rename_i h
  · exact iff_of_true rfl h
  · exact iff_of_false (by decide) h

/-- Counterpart of `glyph_eq_pass_iff` for the attention glyph. -/
theorem glyph_eq_attn_iff (c : Prop) [Decidable c] :
    ((if c then "✓" else "⚠") = "⚠") ↔ ¬ c := by
  split <;> rename_i h
  · exact iff_of_false (by decide) (not_not_intro h)
  · exact iff_of_true rfl h

/-- C9: in the key-metrics table, the volatility/drawdown/worst-day rows
carry the pass glyph iff the realized metric is ≤ its limit, the expected
final value row iff it is ≥ the target, and the cash row iff the allocation
is ≥ the minimum; otherwise they carry the attention glyph. -/
theorem create_summary_table_statuses (run : OptimizationRun) :
    ((create_summary_table run).map (fun r => r.headD "")
      = ["Metric", "Success Probability", "Expected Final Value",
         "Portfolio Volatility", "Average Drawdown", "Worst Day Drop",
         "Cash Allocation"])
    ∧ (((create_summary_table run).getD 2 []).getLastD "" = "✓"
        ↔ run.inputs.target_portfolio ≤ run.results.avg_final)
    ∧ (((create_summary_table run).getD 3 []).getLastD "" = "✓"
        ↔ run.results.volatility ≤ run.inputs.sigma_max)
    ∧ (((create_summary_table run).getD 3 []).getLastD "" = "⚠"
        ↔ ¬ run.results.volatility ≤ run.inputs.sigma_max)
    ∧ (((create_summary_table run).getD 4 []).getLastD "" = "✓"
        ↔ run.results.avg_drawdown ≤ run.inputs.max_drawdown)
    ∧ (((create_summary_table run).getD 5 []).getLastD "" = "✓"
        ↔ run.results.avg_worst_day ≤ run.inputs.worst_day_limit)
    ∧ (((create_summary_table run).getD 6 []).getLastD "" = "✓"
        ↔ run.inputs.cash_min ≤ run.results.cash_allocation)
    ∧ (((create_summary_table run).getD 6 []).getLastD "" = "⚠"
        ↔ ¬ run.inputs.cash_min ≤ run.results.cash_allocation) := by
  exact ⟨rfl, glyph_eq_pass_iff _, glyph_eq_pass_iff _, glyph_eq_attn_iff _,
    glyph_eq_pass_iff _, glyph_eq_pass_iff _, glyph_eq_pass_iff _,
    glyph_eq_attn_iff _⟩

/-! ## `PortfolioOptimizer.objective` (optimization/portfolio_optimizer.py, lines 196-218)

The candidate vector is a list of rationals.  `np` elementwise operations
become `List.map`; `x.sum()` is `List.sum`.  In ℚ, division by zero yields
0 where numpy would produce non-finite values, so every statement about
normalization carries a nonzero-sum hypothesis. -/

/-- `np.clip(x, 0, 1)` (line 198). -/
def np_clip01 (x : List ℚ) : List ℚ :=
  x.map (fun a => if a < 0 then 0 else if 1 < a then 1 else a)

/-- `x / x.sum()` (numpy broadcast division, line 199). -/
def div_by_sum (x : List ℚ) : List ℚ := x.map (fun a => a / x.sum)

/-- The weight vector `w` that `objective` passes to the Monte-Carlo
simulation and the penalty terms: clip to `[0, 1]`, then renormalize
(lines 198-199). -/
def objective_weights (x : List ℚ) : List ℚ := div_by_sum (np_clip01 x)

/-- `objective` (lines 196-218): after the preprocessing, lines 202-218 use
`x` only through `w` (simulation, penalties, and their combination into the
scalar objective); that whole tail is the parameter `tail`. -/
def objective (tail : List ℚ → ℚ) (x : List ℚ) : ℚ :=
  objective_weights x |> tail

/-- C4 counterexample: the claim fails as stated.  `objective` clips BEFORE
renormalizing, so for the raw vector `[3, 1]` (coordinates outside `[0,1]`)
the clipped-renormalized weights are `[1/2, 1/2]`, while the pre-normalized
vector `[3/4, 1/4]` of the same direction survives clipping unchanged and
yields weights `[3/4, 1/4]`: the two simplex weight vectors differ, and an
objective tail reading the first weight yields different values. -/
theorem objective_prenormalized_counterexample :
    objective_weights [3, 1] = [1/2, 1/2]
    ∧ objective_weights (div_by_sum [3, 1]) = [3/4, 1/4]
    ∧ objective_weights [3, 1] ≠ objective_weights (div_by_sum [3, 1])
    ∧ objective (fun w => w.headD 0) [3, 1]
        ≠ objective (fun w => w.headD 0) (div_by_sum [3, 1]) := by
  have h1 : objective_weights [3, 1] = [1/2, 1/2] := by
    norm_num [objective_weights, np_clip01, div_by_sum]
  have h2 : objective_weights (div_by_sum [3, 1]) = [3/4, 1/4] := by
    norm_num [objective_weights, np_clip01, div_by_sum]
  refine ⟨h1, h2, ?_, ?_⟩
  · rw [h1, h2]
    norm_num
  · unfold objective
    rw [h1, h2]
    norm_num

/-- Sum of an elementwise-divided list. -/
theorem sum_map_div (l : List ℚ) (s : ℚ) :
    (l.map (fun a => a / s)).sum = l.sum / s := by
  induction l with
  | nil => simp
  | cons a t ih => simp [ih, add_div]

/-- C4 (amended): for a candidate vector whose coordinates already lie in
`[0, 1]` — as every vector produced by the differential-evolution search
does, its box bounds being `[0, upper_bounds]` with `upper_bounds ≤ 1` —
with nonzero coordinate sum, clipping is the identity both before and after
pre-normalization, so the unnormalized vector and its pre-normalized version
reduce to the same simplex weight vector and yield identical simulated
metrics and objective value. -/
theorem objective_prenormalized_invariant (x : List ℚ)
    (hb : ∀ a ∈ x, 0 ≤ a ∧ a ≤ 1) (hs : x.sum ≠ 0) :
    objective_weights (div_by_sum x) = objective_weights x
    ∧ ∀ tail : List ℚ → ℚ,
        objective tail (div_by_sum x) = objective tail x := by
  have hnn : ∀ a ∈ x, 0 ≤ a := fun a ha => (hb a ha).1
  have hspos : 0 < x.sum :=
    lt_of_le_of_ne (List.sum_nonneg hnn) (Ne.symm hs)
  have hclip_x : np_clip01 x = x := by
    unfold np_clip01
    conv_rhs => rw [← List.map_id x]
    refine List.map_congr_left (fun a ha => ?_)
    have h := hb a ha
    rw [if_neg (not_lt.2 h.1), if_neg (not_lt.2 h.2)]
    rfl
  have hle_sum : ∀ a ∈ x, a ≤ x.sum := fun a ha =>
    List.single_le_sum hnn a ha
  have hb' : ∀ b ∈ div_by_sum x, 0 ≤ b ∧ b ≤ 1 := by
    intro b hbmem
    unfold div_by_sum at hbmem
    rcases List.mem_map.1 hbmem with ⟨a, ha, rfl⟩
    constructor
    · exact div_nonneg (hnn a ha) hspos.le
    · rw [div_le_one hspos]
      exact hle_sum a ha
  have hclip_y : np_clip01 (div_by_sum x) = div_by_sum x := by
    unfold np_clip01
    conv_rhs => rw [← List.map_id (div_by_sum x)]
    refine List.map_congr_left (fun b hbmem => ?_)
    have h := hb' b hbmem
    rw [if_neg (not_lt.2 h.1), if_neg (not_lt.2 h.2)]
    rfl
  have hsum_y : (div_by_sum x).sum = 1 := by
    show (x.map (fun a => a / x.sum)).sum = 1
    rw [sum_map_div, div_self hs]
  have hnorm_y : div_by_sum (div_by_sum x) = div_by_sum x := by
    have hdef : div_by_sum (div_by_sum x)
        = (div_by_sum x).map (fun a => a / (div_by_sum x).sum) := rfl
    rw [hdef, hsum_y]
    simp
  have hmain : objective_weights (div_by_sum x) = objective_weights x := by
    unfold objective_weights
    rw [hclip_x, hclip_y, hnorm_y]
  exact ⟨hmain, fun tail => by unfold objective; rw [hmain]⟩

/-- Witness for C4 (amended) at `x = [1/2, 1/4]`: coordinates in `[0,1]`,
nonzero sum, and both routes give the simplex vector `[2/3, 1/3]`. -/
theorem objective_prenormalized_invariant_witness :
    (∀ a ∈ ([1/2, 1/4] : List ℚ), 0 ≤ a ∧ a ≤ 1)
    ∧ ([1/2, 1/4] : List ℚ).sum ≠ 0
    ∧ objective_weights (div_by_sum [1/2, 1/4]) = objective_weights [1/2, 1/4]
    ∧ objective_weights [1/2, 1/4] = [2/3, 1/3] :=
  ⟨by intro a ha; rcases List.mem_cons.1 ha with rfl | ha2;
      · constructor <;> norm_num
      · rcases List.mem_cons.1 ha2 with rfl | ha3
        · constructor <;> norm_num
        · simp at ha3,
   by norm_num,
   (objective_prenormalized_invariant [1/2, 1/4]
      (by intro a ha; rcases List.mem_cons.1 ha with rfl | ha2;
          · constructor <;> norm_num
          · rcases List.mem_cons.1 ha2 with rfl | ha3
            · constructor <;> norm_num
            · simp at ha3)
      (by norm_num)).1,
   by norm_num [objective_weights, np_clip01, div_by_sum]⟩

/-! ## `reporter` (nodes.py, lines 424-479) -/

/-- Runtime errors surfacing from a stage's Python control flow. -/
inductive PyRunError where
  | unboundLocal (name : String)
deriving DecidableEq

/-- `reporter` (lines 424-479), modelling the Python scoping of the local
`url`: it is assigned only inside the `if not state.pdf_dashboard_url:`
branch — either the signed URL produced by the publication pipeline
(`generate_short_id` / `generate_pdf_dashboard` / `upload_pdf`, the oracle
`publish`), or the fixed placeholder string when any step of that pipeline
raises (the bare `except:`).  Outside that branch it stays unassigned
(`none`), and the final model call's prompt interpolates it.  The final
model call is the oracle `respond`, applied to the prompt line carrying
`url`; the state enters through the one field this control flow branches
on. -/
def reporter (respond : String → String) (publish : Except Unit String)
    (pdf_dashboard_url : String) : Except PyRunError String :=
  let url : Option String :=
    if pdf_dashboard_url = "" then
      some (match publish with
        | .ok u => u
        | .error _ => "Invalid URL: Please double check the PDF Dashboard Publication.")
    else none
  match url with
  | none => Except.error (PyRunError.unboundLocal "url")
  | some u => Except.ok (respond ("PDF Dashboard available at: " ++ u))

/-- C10: when `pdf_dashboard_url` is already non-empty the publication
branch is skipped, the local `url` is never assigned, and the stage fails
with an unbound-local error instead of reusing the stored URL; when it is
empty, the branch assigns the published URL, or the placeholder on
publication failure, and the stage succeeds. -/
theorem reporter_unbound_url (respond : String → String)
    (publish : Except Unit String) (stored : String) :
    (stored ≠ "" →
      reporter respond publish stored = Except.error (PyRunError.unboundLocal "url"))
    ∧ (∀ u, publish = .ok u →
        reporter respond publish ""
          = Except.ok (respond ("PDF Dashboard available at: " ++ u)))
    ∧ (∀ e, publish = .error e →
        reporter respond publish ""
          = Except.ok (respond ("PDF Dashboard available at: Invalid URL: Please double check the PDF Dashboard Publication."))) := by
  refine ⟨fun h => ?_, fun u hu => ?_, fun e he => ?_⟩
  · unfold reporter
    simp [h]
  · unfold reporter
    simp [hu]
  · unfold reporter
    simp [he]

/-- Witness for C10: a state that already records a dashboard URL makes the
reporter fail with the unbound-local error even though publication would
succeed. -/
theorem reporter_unbound_url_witness :
    reporter (fun p => p) (Except.ok "https://signed.example/d.pdf")
        "https://stored.example/old.pdf"
      = Except.error (PyRunError.unboundLocal "url") :=
  (reporter_unbound_url (fun p => p) (Except.ok "https://signed.example/d.pdf")
    "https://stored.example/old.pdf").1 (by decide)

/-! ## `optimizer` node (nodes.py, lines 359-421)

`parse_state_to_optimizer_params` is called on line 369, BEFORE the `try`
block that starts on line 376; every other step of the stage happens inside
the `try`.  The types `P` (optimizer parameter set) and `J` (parsed JSON
response) stay abstract. -/

/-- State update returned by the optimizer node: the keys of the returned
dict.  `none` models a key that the returned dict does not carry. -/
structure OptimizerUpdate (J : Type) where
  messages : List String
  optimizer_raw_results : Option J
  optimizer_outcome : Option String

/-- The stage's external steps.  `parse_state_to_optimizer_params` is
modelled from the spec: its body is not among the inspected sources; per
§4.11 it projects the conversation state into the optimizer parameter set
and its validation raises a descriptive error on an out-of-range
configuration — hence an `Except` outcome.  The others are the steps the
source performs inside the `try` block: credential construction (raises on
missing environment fields), token refresh (yielding `credentials.token`,
possibly `None`), the authenticated POST (`raise_for_status` folds non-2xx,
transport errors and the 300 s timeout into a raise), and
`format_results_for_llm` (body also not in src; any raise it produced would
be caught by the same `except`). -/
structure OptimizerStage (P J : Type) where
  parse_state_to_optimizer_params : Except String P
  get_google_credentials : Except String Unit
  refresh : Except String (Option String)
  post_optimize : P → Except String J
  format_results_for_llm : J → Except String String

/-- The `optimizer` node (lines 359-421). -/
def optimizer {P J : Type} (st : OptimizerStage P J) :
    Except String (OptimizerUpdate J) :=
  match st.parse_state_to_optimizer_params with
  | .error e => Except.error e
  | .ok params =>
    let tryBody : Except String (OptimizerUpdate J) := do
      let _ ← st.get_google_credentials
      let token ← st.refresh
      match token with
      | none => throw "Failed to obtain access token"
      | some _ => do
        let optimizer_results ← st.post_optimize params
        let formatted_results ← st.format_results_for_llm optimizer_results
        pure { messages := [formatted_results],
               optimizer_raw_results := some optimizer_results,
               optimizer_outcome := some formatted_results }
    match tryBody with
    | .ok r => Except.ok r
    | .error e => Except.ok { messages := ["Optimization failed: " ++ e],
                              optimizer_raw_results := none,
                              optimizer_outcome := none }

/-- C7 counterexample: a parameter-mapping/validation failure is NOT caught
at the stage boundary — `parse_state_to_optimizer_params` runs before the
`try` block, so its error propagates out of the node instead of becoming a
narrated message. -/
theorem optimizer_parse_failure_uncaught :
    optimizer (P := Unit) (J := Unit)
      { parse_state_to_optimizer_params := Except.error "Invalid optimizer parameters",
        get_google_credentials := Except.ok (),
        refresh := Except.ok (some "token"),
        post_optimize := fun _ => Except.ok (),
        format_results_for_llm := fun _ => Except.ok "formatted" }
    = Except.error "Invalid optimizer parameters" := rfl

/-- C7 (amended): every failure raised INSIDE the `try` block — credential
construction, token refresh, a missing token, the remote `/optimize` call
(non-2xx, transport error, timeout), results formatting — is converted into
the single narrated message `"Optimization failed: ..."` with
`optimizer_raw_results` and `optimizer_outcome` not written; the success
path writes all three keys.  A parameter mapping/validation failure,
however, happens before the `try` and propagates out of the node
(`optimizer_parse_failure_uncaught`). -/
theorem optimizer_failure_handling {P J : Type} (st : OptimizerStage P J) (p : P)
    (hp : st.parse_state_to_optimizer_params = .ok p) :
    (∀ e, st.get_google_credentials = .error e →
      optimizer st = Except.ok ⟨["Optimization failed: " ++ e], none, none⟩)
    ∧ (∀ e, st.get_google_credentials = .ok () → st.refresh = .error e →
      optimizer st = Except.ok ⟨["Optimization failed: " ++ e], none, none⟩)
    ∧ (st.get_google_credentials = .ok () → st.refresh = .ok none →
      optimizer st
        = Except.ok ⟨["Optimization failed: Failed to obtain access token"], none, none⟩)
    ∧ (∀ t e, st.get_google_credentials = .ok () → st.refresh = .ok (some t) →
        st.post_optimize p = .error e →
      optimizer st = Except.ok ⟨["Optimization failed: " ++ e], none, none⟩)
    ∧ (∀ t j e, st.get_google_credentials = .ok () → st.refresh = .ok (some t) →
        st.post_optimize p = .ok j → st.format_results_for_llm j = .error e →
      optimizer st = Except.ok ⟨["Optimization failed: " ++ e], none, none⟩)
    ∧ (∀ t j f, st.get_google_credentials = .ok () → st.refresh = .ok (some t) →
        st.post_optimize p = .ok j → st.format_results_for_llm j = .ok f →
      optimizer st = Except.ok ⟨[f], some j, some f⟩) := by
  refine ⟨fun e h1 => ?_, fun e h1 h2 => ?_, fun h1 h2 => ?_,
    fun t e h1 h2 h3 => ?_, fun t j e h1 h2 h3 h4 => ?_,
    fun t j f h1 h2 h3 h4 => ?_⟩ <;>
  · unfold optimizer
    rw [hp]
    simp [h1, Bind.bind, Except.bind]
    try simp [*]
    try rfl

/-- Witness for C7 (amended): with valid parameters and a failing credential
construction, the node returns only the narrated failure message. -/
theorem optimizer_failure_handling_witness :
    optimizer (P := Unit) (J := Unit)
      { parse_state_to_optimizer_params := Except.ok (),
        get_google_credentials :=
          Except.error "Missing required environment variables: private_key_id",
        refresh := Except.ok (some "token"),
        post_optimize := fun _ => Except.ok (),
        format_results_for_llm := fun _ => Except.ok "formatted" }
    = Except.ok ⟨["Optimization failed: Missing required environment variables: private_key_id"],
        none, none⟩ :=
  (optimizer_failure_handling _ () rfl).1
    "Missing required environment variables: private_key_id" rfl

/-! ## `State` (state.py, lines 14-118) and the routers (routers.py, lines 10-70)

`State` is a Python dataclass; an instance carries exactly the fields the
dataclass declares, and reading any other attribute raises
`AttributeError`.  A field value is a `PyVal`; an instance is its field
table; `default_state` is the freshly created `State()` with every declared
default. -/

/-- A Python field value, as far as the state record needs. -/
inductive PyVal where
  | vstr (s : String)
  | vint (n : ℤ)
  | vfloat (q : ℚ)
  | vbool (b : Bool)
  | vlist (n : Nat)     -- a list field, by its length (defaults are empty)
deriving DecidableEq

/-- The freshly created `State()` of state.py: exactly the declared fields
with their declared defaults (`InputState` contributes `messages`,
lines 21-23; `State` adds the rest, lines 48-111). -/
def default_state : List (String × PyVal) :=
  [("messages", .vlist 0),
   ("is_last_step", .vbool false),
   ("name", .vstr ""),
   ("age", .vint 0),
   ("start_portfolio", .vfloat 0),
   ("planning_horizon", .vstr ""),
   ("maximum_drawdown_percentage", .vfloat 0),
   ("worst_day_decline_percentage", .vfloat 0),
   ("cash_reserve", .vfloat 0),
   ("max_single_asset_allocation_percentage", .vfloat 0),
   ("target_amount", .vfloat 0),
   ("existing_holdings", .vlist 0),
   ("excluded_assets", .vlist 0),
   ("investment_preferences", .vlist 0)]

/-- Python attribute read `state.<nm>` on a dataclass instance. -/
def py_getattr (state : List (String × PyVal)) (nm : String) : Except String PyVal :=
  match state.lookup nm with
  | some v => Except.ok v
  | none => Except.error
      ("AttributeError: \x27State\x27 object has no attribute \x27" ++ nm ++ "\x27")

/-- Python truthiness of a field value (`if state.next:`). -/
def py_truthy : PyVal → Bool
  | .vstr s => if s = "" then false else true
  | .vint n => if n = 0 then false else true
  | .vfloat q => if q = 0 then false else true
  | .vbool b => b
  | .vlist n => if n = 0 then false else true

/-- The string a router returns when it forwards the `next` hint (the hint
field is a string on the paths the graph exercises; a non-string hint is
returned as-is by Python and has no string rendering here). -/
def hintString : PyVal → String
  | .vstr s => s
  | _ => ""

/-- `route_profiler_output` (routers.py, lines 10-28): honor `state.next`
if truthy, else advance on `state.profile_complete`, else suspend. -/
def route_profiler_output (state : List (String × PyVal)) : Except String String := do
  let nxt ← py_getattr state "next"
  if py_truthy nxt then
    pure (hintString nxt)
  else do
    let pc ← py_getattr state "profile_complete"
    if py_truthy pc then pure "mandate_strategist"
    else pure "profiler_human"

/-- `route_mandate_strategist_output` (routers.py, lines 31-49). -/
def route_mandate_strategist_output (state : List (String × PyVal)) :
    Except String String := do
  let nxt ← py_getattr state "next"
  if py_truthy nxt then
    pure (hintString nxt)
  else do
    let mc ← py_getattr state "mandate_complete"
    if py_truthy mc then pure "asset_researcher"
    else pure "strategist_human"

/-- `route_asset_researcher_output` (routers.py, lines 52-70). -/
def route_asset_researcher_output (state : List (String × PyVal)) :
    Except String String := do
  let nxt ← py_getattr state "next"
  if py_truthy nxt then
    pure (hintString nxt)
  else do
    let tk ← py_getattr state "tickers"
    if py_truthy tk then pure "portfolio_analyst"
    else pure "researcher_human"

/-- C8 (code evaluated at the claim's failing input): the `State` dataclass
declares defaults for its profile and mandate fields, but declares NO
`next`, `profile_complete`, `mandate_complete`, `tickers` (nor `bl_views`,
`optimizer_raw_results`, `optimizer_outcome`, `pdf_dashboard_url`,
`user_input`) field at all, so on a freshly created default state every
router's very first read — `state.next` — raises `AttributeError` instead
of returning a default. -/
theorem routers_undefined_on_default_state :
    (∀ f ∈ ["messages", "is_last_step", "name", "age", "start_portfolio",
        "planning_horizon", "maximum_drawdown_percentage",
        "worst_day_decline_percentage", "cash_reserve",
        "max_single_asset_allocation_percentage", "target_amount",
        "existing_holdings", "excluded_assets", "investment_preferences"],
      (default_state.lookup f).isSome)
    ∧ (∀ f ∈ ["next", "profile_complete", "mandate_complete", "tickers",
        "user_input", "bl_views", "optimizer_raw_results",
        "optimizer_outcome", "pdf_dashboard_url"],
      py_getattr default_state f
        = Except.error
          ("AttributeError: \x27State\x27 object has no attribute \x27" ++ f ++ "\x27"))
    ∧ route_profiler_output default_state
        = Except.error "AttributeError: \x27State\x27 object has no attribute \x27next\x27"
    ∧ route_mandate_strategist_output default_state
        = Except.error "AttributeError: \x27State\x27 object has no attribute \x27next\x27"
    ∧ route_asset_researcher_output default_state
        = Except.error "AttributeError: \x27State\x27 object has no attribute \x27next\x27" := by
  refine ⟨by decide, ?_, rfl, rfl, rfl⟩
  intro f hf
  fin_cases hf <;> rfl

/-! ## Black-Litterman views (extraction_tools.py, lines 136-385)

A view arrives as a Python dict.  A dict field is modelled as `Fd α`:
absent (`missing`), present but unusable (`invalid`: a non-string where a
string is type-checked, or a value `float()` rejects), or present with a
usable value.  Where the source interpolates a raw Python value that
`Fd.invalid` cannot render, the model prints `<invalid>`; no claim
constrains those message fragments. -/

/-- A view-dict field. -/
inductive Fd (α : Type) where
  | missing
  | invalid
  | val (a : α)
deriving DecidableEq

/-- One entry of the `views` list. -/
structure ViewD where
  view_type : Fd String := .missing
  ticker : Fd String := .missing
  long_ticker : Fd String := .missing
  short_ticker : Fd String := .missing
  expected_return : Fd ℚ := .missing
  uncertainty : Fd ℚ := .missing
  description : Fd String := .missing
deriving DecidableEq

/-- Render a string field for message interpolation. -/
def fdToStr : Fd String → String
  | .val s => s
  | _ => "<invalid>"

/-- A string field that passes `isinstance(x, str) and x.strip()`: yields
the original (unstripped) value. -/
def fdStrOk : Fd String → Option String
  | .val s => if py_strip s = "" then none else some s
  | _ => none

/-- The type-specific required-field and string checks of the
`_validate_bl_views` loop body (lines 233-255), without the message
prefix. -/
def typeSpecificCheck (v : ViewD) : Option String :=
  if v.view_type = .val "absolute" then
    if v.ticker = .missing then
      some " (absolute) is missing required field \x27ticker\x27."
    else match fdStrOk v.ticker with
      | none => some " has invalid ticker: must be a non-empty string."
      | some _ => none
  else
    let missing_fields :=
      (if v.long_ticker = .missing then ["long_ticker"] else [])
      ++ (if v.short_ticker = .missing then ["short_ticker"] else [])
    if missing_fields ≠ [] then
      some (" (relative) is missing required field(s): "
        ++ String.intercalate ", " missing_fields ++ ".")
    else match fdStrOk v.long_ticker with
      | none => some " has invalid long_ticker: must be a non-empty string."
      | some lt =>
        match fdStrOk v.short_ticker with
        | none => some " has invalid short_ticker: must be a non-empty string."
        | some st =>
          if lt = st then
            some (" has same ticker \x27" ++ lt
              ++ "\x27 for both long_ticker and short_ticker.")
          else none

/-- The numeric parse/range checks and the description check of the
`_validate_bl_views` loop body (lines 257-277), without the message prefix.
The `missing` branches are unreachable: `validateViewSuffix` runs this only
after its missing-field checks. -/
def numericDescCheck (v : ViewD) : Option String :=
  match v.expected_return with
  | .missing => none
  | .invalid =>
    some " has invalid expected_return: must be a number, got \x27<invalid>\x27."
  | .val expected_return =>
    match v.uncertainty with
    | .missing => none
    | .invalid =>
      some " has invalid uncertainty: must be a number, got \x27<invalid>\x27."
    | .val uncertainty =>
      if ¬ (-1 ≤ expected_return ∧ expected_return ≤ 1) then
        some (" expected_return " ++ toString expected_return
          ++ " is outside reasonable range [-1.0, 1.0].")
      else if ¬ (mkRat 1 10000 ≤ uncertainty ∧ uncertainty ≤ mkRat 1 10) then
        some (" uncertainty " ++ toString uncertainty
          ++ " is outside valid range [0.0001, 0.1].")
      else match fdStrOk v.description with
        | none => some " has invalid description: must be a non-empty string."
        | some _ => none

/-- The body of the `_validate_bl_views` per-view loop (lines 215-277)
without the `View {i+1}` message prefix: every message the loop can produce
starts with exactly that prefix followed by an index-independent remainder,
so the loop body is factored as this suffix computation plus the prefix
(`validateView`).  `none` means the view passes every check. -/
def validateViewSuffix (v : ViewD) : Option String :=
  if v.view_type = .missing then
    some " is missing required field \x27view_type\x27."
  else if v.view_type ≠ .val "absolute" ∧ v.view_type ≠ .val "relative" then
    some (" has invalid view_type \x27" ++ fdToStr v.view_type
      ++ "\x27. Must be \x27absolute\x27 or \x27relative\x27.")
  else if v.expected_return = .missing then
    some " is missing required field \x27expected_return\x27."
  else if v.uncertainty = .missing then
    some " is missing required field \x27uncertainty\x27."
  else if v.description = .missing then
    some " is missing required field \x27description\x27."
  else match typeSpecificCheck v with
    | some m => some m
    | none => numericDescCheck v

/-- One iteration of the `_validate_bl_views` loop: the message carries the
1-based view index. -/
def validateView (i : Nat) (v : ViewD) : Option String :=
  (validateViewSuffix v).map (fun suffix => "View " ++ toString (i + 1) ++ suffix)

/-- The `for i, view in enumerate(views)` loop of `_validate_bl_views`:
first failing view wins. -/
def goValidate : Nat → List ViewD → Option String
  | _, [] => none
  | i, v :: rest =>
    match validateView i v with
    | some m => some m
    | none => goValidate (i + 1) rest

/-- `_validate_bl_views` (lines 197-279).  (The `isinstance(views, list)` and
per-entry `isinstance(view, dict)` checks cannot fail in the typed model.) -/
def _validate_bl_views (views : List ViewD) : Bool × String :=
  if views = [] then
    (false, "No views provided. At least one view is required.")
  else
    match goValidate 0 views with
    | some m => (false, m)
    | none => (true, "")

/-- Lexicographic (code-point) comparison of character lists: the order in
which Python `sorted` compares strings. -/
def charsLe : List Char → List Char → Bool
  | [], _ => true
  | _ :: _, [] => false
  | c :: cs, d :: ds => if c < d then true else if d < c then false else charsLe cs ds

/-- Python string comparison `a <= b` (code-point lexicographic). -/
def pyStrLe (a b : String) : Bool := charsLe a.data b.data

/-- The tickers one view contributes to `tickers_set` (lines 297-305). -/
def viewTickers (view : ViewD) : List String :=
  if view.view_type = .val "absolute" then
    match view.ticker with | .val t => [t] | _ => []
  else if view.view_type = .val "relative" then
    (match view.long_ticker with | .val t => [t] | _ => [])
    ++ (match view.short_ticker with | .val t => [t] | _ => [])
  else []

/-- The tickers referenced across all views, in iteration order with
duplicates (lines 296-305).  The source accumulates into a Python set; a
present-but-non-string ticker value (`Fd.invalid`) would enter that set and
later crash `sorted`; it has no representation here and is skipped — the
validated inputs all claims quantify over never contain it. -/
def collectTickers (views : List ViewD) : List String :=
  views.foldl (fun acc view => acc ++ viewTickers view) []

/-- `sorted(list(tickers_set))` (line 308): deduplicate, then sort
lexicographically by code point. -/
def sortedTickers (views : List ViewD) : List String :=
  List.insertionSort (fun a b => pyStrLe a b = true) (collectTickers views).dedup

/-- The result dict of `_process_bl_views` (lines 378-384). -/
structure BLResult where
  p_matrix : List (List ℚ)
  q_vector : List ℚ
  sigma_vector : List ℚ
  explanation : String
  tickers : List String
deriving DecidableEq

/-- `float(view[...])` inside `_process_bl_views` (lines 331-332): raises
`ValueError` for an unparseable value (`Fd.invalid`); `Fd.missing` was
already excluded by the required-fields check. -/
def floatOf (name : String) : Fd ℚ → Except String ℚ
  | .val q => .ok q
  | _ => .error ("could not convert " ++ name ++ " to float: \x27<invalid>\x27")

/-- The body of the `for i, view in enumerate(views)` loop of
`_process_bl_views` (lines 322-376), producing this view's P-matrix row, q
and sigma entries and description sentence.  The source writes row `i` of
the `np.zeros((v, k))` matrix in place; since iteration `i` writes only row
`i`, the matrix is equivalently built row by row, each row starting from
zeros (`List.replicate k 0`) and written by `List.set`. -/
def processView (tickers : List String) (i : Nat) (view : ViewD) :
    Except String (List ℚ × ℚ × ℚ × String) := do
  let pre := "View " ++ toString (i + 1)
  if view.view_type = .missing then throw (pre ++ ": Missing field \x27view_type\x27")
  if view.expected_return = .missing then
    throw (pre ++ ": Missing field \x27expected_return\x27")
  if view.uncertainty = .missing then throw (pre ++ ": Missing field \x27uncertainty\x27")
  if view.description = .missing then throw (pre ++ ": Missing field \x27description\x27")
  let expected_return ← floatOf "expected_return" view.expected_return
  let uncertainty ← floatOf "uncertainty" view.uncertainty
  let description := fdToStr view.description
  if ¬ (mkRat 1 10000 ≤ uncertainty ∧ uncertainty ≤ mkRat 1 10) then
    throw (pre ++ ": Uncertainty " ++ toString uncertainty
      ++ " outside valid range [0.0001, 0.1]")
  let k := tickers.length
  if view.view_type = .val "absolute" then
    if view.ticker = .missing then throw (pre ++ ": Absolute view missing \x27ticker\x27")
    let ticker := fdToStr view.ticker
    if ticker ∉ tickers then
      throw (pre ++ ": Unknown ticker \x27" ++ ticker ++ "\x27")
    let row := (List.replicate k (0 : ℚ)).set (tickers.indexOf ticker) 1
    pure (row, expected_return, uncertainty,
      ticker ++ " with expected return " ++ fmtPct1 expected_return
        ++ " due to " ++ description ++ ".")
  else if view.view_type = .val "relative" then
    if view.long_ticker = .missing ∨ view.short_ticker = .missing then
      throw (pre ++ ": Relative view missing ticker fields")
    let long_ticker := fdToStr view.long_ticker
    let short_ticker := fdToStr view.short_ticker
    if long_ticker ∉ tickers then
      throw (pre ++ ": Unknown long_ticker \x27" ++ long_ticker ++ "\x27")
    if short_ticker ∉ tickers then
      throw (pre ++ ": Unknown short_ticker \x27" ++ short_ticker ++ "\x27")
    if long_ticker = short_ticker then
      throw (pre ++ ": Cannot have same ticker for long and short")
    let row := ((List.replicate k (0 : ℚ)).set (tickers.indexOf long_ticker) 1).set
      (tickers.indexOf short_ticker) (-1)
    pure (row, expected_return, uncertainty,
      long_ticker ++ " outperforms " ++ short_ticker ++ " by "
        ++ fmtPct1 expected_return ++ " due to " ++ description ++ ".")
  else
    throw (pre ++ ": Invalid view_type \x27" ++ fdToStr view.view_type
      ++ "\x27. Must be \x27absolute\x27 or \x27relative\x27")

/-- The whole processing loop, threading the 1-based index. -/
def processAll (tickers : List String) : Nat → List ViewD →
    Except String (List (List ℚ × ℚ × ℚ × String))
  | _, [] => .ok []
  | i, v :: rest => do
    let r ← processView tickers i v
    let rs ← processAll tickers (i + 1) rest
    pure (r :: rs)

/-- `_process_bl_views` (lines 282-384). -/
def _process_bl_views (views : List ViewD) : Except String BLResult := do
  if views = [] then throw "Views must be a non-empty list"
  let tickers := sortedTickers views
  let rows ← processAll tickers 0 views
  pure { p_matrix := rows.map (fun r => r.1),
         q_vector := rows.map (fun r => r.2.1),
         sigma_vector := rows.map (fun r => r.2.2.1),
         explanation := String.intercalate "; " (rows.map (fun r => r.2.2.2)),
         tickers := tickers }

/-- The `bl_views` payload of a successful `extract_bl_views` call: the
processed result with the nested `views_complete` completion flag
(lines 174-182). -/
structure BLViewsPayload where
  result : BLResult
  views_complete : Bool
deriving DecidableEq

/-- Result of `extract_bl_views`: a dict with an `error` key and a
top-level `views_complete` flag, or a dict with only the `bl_views` key. -/
inductive ExtractBLResult where
  | err (error : String) (views_complete : Bool)
  | ok (bl_views : BLViewsPayload)
deriving DecidableEq

/-- `extract_bl_views` (lines 136-194).  Every failure the model can raise
inside processing corresponds to a Python `ValueError`, routed to the
`"Processing error: ..."` branch; the `"Unexpected error: ..."` branch
catches exception types the typed model cannot produce. -/
def extract_bl_views (views : List ViewD) : ExtractBLResult :=
  match _validate_bl_views views with
  | (false, error_message) => .err error_message false
  | (true, _) =>
    match _process_bl_views views with
    | .error e => .err ("Processing error: " ++ e) false
    | .ok result => .ok { result := result, views_complete := true }

theorem typeSpecificCheck_none_abs (v : ViewD) (h : typeSpecificCheck v = none)
    (hvt : v.view_type = .val "absolute") :
    ∃ t, v.ticker = .val t ∧ py_strip t ≠ "" := by
  simp only [typeSpecificCheck, if_pos hvt] at h
  cases htk : v.ticker with
  | missing => simp [htk] at h
  | invalid => simp [htk, fdStrOk] at h
  | val t =>
    refine ⟨t, rfl, ?_⟩
    by_cases he : py_strip t = ""
    · simp [htk, fdStrOk, he] at h
    · exact he

theorem typeSpecificCheck_none_rel (v : ViewD) (h : typeSpecificCheck v = none)
    (hvt : ¬ v.view_type = .val "absolute") :
    ∃ lt st, v.long_ticker = .val lt ∧ v.short_ticker = .val st
      ∧ py_strip lt ≠ "" ∧ py_strip st ≠ "" ∧ lt ≠ st := by
  simp only [typeSpecificCheck, if_neg hvt] at h
  cases hlt : v.long_ticker with
  | missing => simp [hlt] at h
  | invalid =>
    cases hst : v.short_ticker <;> simp [hlt, hst, fdStrOk] at h
  | val lt =>
    cases hst : v.short_ticker with
    | missing => simp [hlt, hst] at h
    | invalid =>
      by_cases hel : py_strip lt = "" <;> simp [hlt, hst, fdStrOk, hel] at h
    | val st =>
      by_cases hel : py_strip lt = ""
      · simp [hlt, hst, fdStrOk, hel] at h
      · by_cases hes : py_strip st = ""
        · simp [hlt, hst, fdStrOk, hel, hes] at h
        · by_cases heq : lt = st
          · simp [hlt, hst, fdStrOk, hel, hes, heq] at h
          · exact ⟨lt, st, rfl, rfl, hel, hes, heq⟩

theorem numericDescCheck_none_props (v : ViewD) (h : numericDescCheck v = none)
    (her : ¬ v.expected_return = .missing) (hun : ¬ v.uncertainty = .missing)
    (hde : ¬ v.description = .missing) :
    (∃ q, v.expected_return = .val q ∧ -1 ≤ q ∧ q ≤ 1)
    ∧ (∃ q, v.uncertainty = .val q ∧ mkRat 1 10000 ≤ q ∧ q ≤ mkRat 1 10)
    ∧ (∃ d, v.description = .val d ∧ py_strip d ≠ "") := by
  cases herc : v.expected_return with
  | missing => exact absurd herc her
  | invalid => simp [numericDescCheck, herc] at h
  | val er =>
    cases hunc : v.uncertainty with
    | missing => exact absurd hunc hun
    | invalid => simp [numericDescCheck, herc, hunc] at h
    | val un =>
      simp only [numericDescCheck, herc, hunc] at h
      by_cases hr1 : -1 ≤ er ∧ er ≤ 1
      · rw [if_neg (not_not_intro hr1)] at h
        by_cases hr2 : mkRat 1 10000 ≤ un ∧ un ≤ mkRat 1 10
        · rw [if_neg (not_not_intro hr2)] at h
          refine ⟨⟨er, rfl, hr1.1, hr1.2⟩, ⟨un, rfl, hr2.1, hr2.2⟩, ?_⟩
          cases hdec : v.description with
          | missing => exact absurd hdec hde
          | invalid => rw [hdec] at h; simp [fdStrOk] at h
          | val d =>
            refine ⟨d, rfl, ?_⟩
            intro hed
            rw [hdec] at h
            simp [fdStrOk, hed] at h
        · rw [if_pos hr2] at h
          exact absurd h (by simp)
      · rw [if_pos hr1] at h
        exact absurd h (by simp)

/-- C3's violation predicate: a relative view with identical long/short
tickers, or an `expected_return` that does not parse as a number in
`[-1, 1]`, or an `uncertainty` that does not parse as a number in
`[0.0001, 0.1]`. -/
def violatesBLRules (v : ViewD) : Prop :=
  (v.view_type = .val "relative" ∧ v.long_ticker = v.short_ticker)
  ∨ (¬ ∃ q, v.expected_return = .val q ∧ -1 ≤ q ∧ q ≤ 1)
  ∨ (¬ ∃ q, v.uncertainty = .val q ∧ mkRat 1 10000 ≤ q ∧ q ≤ mkRat 1 10)

/-- What passing every per-view validation check guarantees. -/
theorem validateViewSuffix_none_props (v : ViewD)
    (h : validateViewSuffix v = none) :
    (v.view_type = .val "absolute" ∨ v.view_type = .val "relative")
    ∧ (∃ q, v.expected_return = .val q ∧ -1 ≤ q ∧ q ≤ 1)
    ∧ (∃ q, v.uncertainty = .val q ∧ mkRat 1 10000 ≤ q ∧ q ≤ mkRat 1 10)
    ∧ (∃ d, v.description = .val d ∧ py_strip d ≠ "")
    ∧ (v.view_type = .val "absolute" → ∃ t, v.ticker = .val t ∧ py_strip t ≠ "")
    ∧ (v.view_type = .val "relative" →
        ∃ lt st, v.long_ticker = .val lt ∧ v.short_ticker = .val st
          ∧ py_strip lt ≠ "" ∧ py_strip st ≠ "" ∧ lt ≠ st) := by
  unfold validateViewSuffix at h
  split at h
  · exact absurd h (by simp)
  split at h
  · exact absurd h (by simp)
  split at h
  · exact absurd h (by simp)
  split at h
  · exact absurd h (by simp)
  split at h
  · exact absurd h (by simp)
  rename_i hvt0 hvt hermiss huncmiss hdescmiss
  have hvtor : v.view_type = .val "absolute" ∨ v.view_type = .val "relative" := by
    by_contra hc
    push_neg at hc
    exact hvt ⟨hc.1, hc.2⟩
  have htc : typeSpecificCheck v = none := by
    cases htc : typeSpecificCheck v with
    | none => rfl
    | some m => rw [htc] at h; simp at h
  rw [htc] at h
  have hnum := numericDescCheck_none_props v h hermiss huncmiss hdescmiss
  refine ⟨hvtor, hnum.1, hnum.2.1, hnum.2.2, fun habs => ?_, fun hrel => ?_⟩
  · exact typeSpecificCheck_none_abs v htc habs
  · refine typeSpecificCheck_none_rel v htc ?_
    rw [hrel]
    simp

/-- If every view of the list passes, the loop reports no error. -/
theorem goValidate_none_of_all (views : List ViewD) (i : Nat)
    (hall : ∀ v ∈ views, validateViewSuffix v = none) :
    goValidate i views = none := by
  induction views generalizing i with
  | nil => rfl
  | cons v rest ih =>
    have hv := hall v (List.mem_cons_self v rest)
    simp only [goValidate, validateView, hv, Option.map_none]
    exact ih (i + 1) (fun w hw => hall w (List.mem_cons_of_mem v hw))

/-- If the loop reports an error, it is the message of the FIRST failing
view, prefixed by that view's 1-based index. -/
theorem goValidate_some_spec (views : List ViewD) (i : Nat) (m : String)
    (h : goValidate i views = some m) :
    ∃ j suffix, ∃ hj : j < views.length,
      validateViewSuffix (views.get ⟨j, hj⟩) = some suffix
      ∧ (∀ j' (hj' : j' < views.length), j' < j →
          validateViewSuffix (views.get ⟨j', hj'⟩) = none)
      ∧ m = "View " ++ toString (i + j + 1) ++ suffix := by
  induction views generalizing i with
  | nil => simp [goValidate] at h
  | cons v rest ih =>
    cases hv : validateViewSuffix v with
    | some suffix =>
      simp [goValidate, validateView, hv] at h
      refine ⟨0, suffix, by simp, hv,
        fun j' hj' hlt => absurd hlt (Nat.not_lt_zero j'), ?_⟩
      subst h
      simp
    | none =>
      simp only [goValidate, validateView, hv, Option.map_none] at h
      rcases ih (i + 1) h with ⟨j, suffix, hj, hfail, hmin, hm⟩
      refine ⟨j + 1, suffix, by simpa using Nat.succ_lt_succ hj, hfail, ?_, ?_⟩
      · intro j' hj' hlt
        match j' with
        | 0 => exact hv
        | Nat.succ j'' =>
          exact hmin j'' (by simpa using Nat.lt_of_succ_lt_succ hj')
            (Nat.lt_of_succ_lt_succ hlt)
      · rw [hm, show i + 1 + j + 1 = i + (j + 1) + 1 from by omega]

/-- Conversely, a silent loop means every view passed. -/
theorem goValidate_none_all (views : List ViewD) (i : Nat)
    (h : goValidate i views = none) :
    ∀ v ∈ views, validateViewSuffix v = none := by
  induction views generalizing i with
  | nil => intro v hv; simp at hv
  | cons w rest ih =>
    intro v hv
    cases hw : validateViewSuffix w with
    | some m => simp [goValidate, validateView, hw] at h
    | none =>
      simp only [goValidate, validateView, hw, Option.map_none] at h
      rcases List.mem_cons.1 hv with rfl | hv2
      · exact hw
      · exact ih (i + 1) h v hv2

/-- C3: any batch containing a view that violates one of the listed rules —
a relative view with `long_ticker = short_ticker`, an `expected_return` not
parsing as a number in `[-1, 1]`, or an `uncertainty` not parsing as a
number in `[0.0001, 0.1]` — is rejected whole: `extract_bl_views` returns
the `error`/`views_complete = false` dict (no `bl_views` key), and the
message names the 1-based index of the first view failing validation. -/
theorem extract_bl_views_rejects_invalid (views : List ViewD)
    (h : ∃ v ∈ views, violatesBLRules v) :
    ∃ msg j, extract_bl_views views = ExtractBLResult.err msg false
      ∧ (∃ hj : j < views.length,
          (validateViewSuffix (views.get ⟨j, hj⟩)).isSome = true
          ∧ ∀ j' (hj' : j' < views.length), j' < j →
              validateViewSuffix (views.get ⟨j', hj'⟩) = none)
      ∧ (∃ rest, msg = "View " ++ toString (j + 1) ++ rest) := by
  obtain ⟨v, hvmem, hviol⟩ := h
  have hfail : validateViewSuffix v ≠ none := by
    intro hnone
    have props := validateViewSuffix_none_props v hnone
    rcases hviol with ⟨hrel, heq⟩ | her | hun
    · rcases props.2.2.2.2.2 hrel with ⟨lt, st, hlt, hst, _, _, hne⟩
      rw [hlt, hst] at heq
      exact hne (by injection heq)
    · exact her props.2.1
    · exact hun props.2.2.1
  have hne : views ≠ [] := by
    rintro rfl
    simp at hvmem
  cases hgo : goValidate 0 views with
  | none => exact absurd (goValidate_none_all views 0 hgo v hvmem) hfail
  | some m =>
    obtain ⟨j, suffix, hj, hjfail, hmin, hm⟩ := goValidate_some_spec views 0 m hgo
    refine ⟨m, j, ?_, ⟨hj, by rw [hjfail]; rfl, hmin⟩,
      ⟨suffix, by rw [hm]; simp⟩⟩
    simp [extract_bl_views, _validate_bl_views, hne, hgo]

/-- A concrete valid absolute view on "AAA". -/
def viewAbsAAA : ViewD :=
  { view_type := .val "absolute", ticker := .val "AAA",
    expected_return := .val 1, uncertainty := .val (mkRat 1 100),
    description := .val "growth" }

/-- A concrete relative view with identical long/short tickers. -/
def viewRelSame : ViewD :=
  { view_type := .val "relative", long_ticker := .val "BBB",
    short_ticker := .val "BBB", expected_return := .val 1,
    uncertainty := .val (mkRat 1 100), description := .val "pair" }

/-- Witness for C3 at a concrete two-view batch whose second view is
relative with identical long/short tickers: the batch is rejected whole and
the message names a view by its 1-based index. -/
theorem extract_bl_views_rejects_invalid_witness :
    (∃ v ∈ [viewAbsAAA, viewRelSame], violatesBLRules v)
    ∧ (∃ msg j, extract_bl_views [viewAbsAAA, viewRelSame]
          = ExtractBLResult.err msg false
        ∧ j < 2
        ∧ (∃ rest, msg = "View " ++ toString (j + 1) ++ rest)) := by
  have hmem : ∃ v ∈ [viewAbsAAA, viewRelSame], violatesBLRules v :=
    ⟨viewRelSame, List.mem_cons_of_mem _ (List.mem_cons_self _ _),
      Or.inl ⟨rfl, rfl⟩⟩
  refine ⟨hmem, ?_⟩
  obtain ⟨msg, j, hres, ⟨hj, _, _⟩, hshape⟩ :=
    extract_bl_views_rejects_invalid _ hmem
  exact ⟨msg, j, hres, by simpa using hj, hshape⟩

/-- `charsLe` is total. -/
theorem charsLe_total : ∀ as bs : List Char, charsLe as bs = true ∨ charsLe bs as = true := by
  intro as
  induction as with
  | nil => intro bs; left; rfl
  | cons c cs ih =>
    intro bs
    cases bs with
    | nil => right; rfl
    | cons d ds =>
      by_cases h1 : c < d
      · left
        simp [charsLe, h1]
      · by_cases h2 : d < c
        · right
          simp [charsLe, h2]
        · have hcd : c = d := le_antisymm (not_lt.1 h2) (not_lt.1 h1)
          subst hcd
          rcases ih ds with h | h
          · left
            simp [charsLe, lt_irrefl, h]
          · right
            simp [charsLe, lt_irrefl, h]

/-- `charsLe` is transitive. -/
theorem charsLe_trans : ∀ as bs cs : List Char,
    charsLe as bs = true → charsLe bs cs = true → charsLe as cs = true := by
  intro as
  induction as with
  | nil => intro bs cs _ _; rfl
  | cons c cs' ih =>
    intro bs cs h1 h2
    cases bs with
    | nil => simp [charsLe] at h1
    | cons d ds =>
      cases cs with
      | nil => simp [charsLe] at h2
      | cons e es =>
        by_cases hde : d < e
        · by_cases hcd : c < d
          · have : c < e := lt_trans hcd hde
            simp [charsLe, this]
          · by_cases hdc : d < c
            · simp [charsLe, hcd, hdc] at h1
            · have hcdeq : c = d := le_antisymm (not_lt.1 hdc) (not_lt.1 hcd)
              subst hcdeq
              simp [charsLe, hde]
        · by_cases hed : e < d
          · simp [charsLe, hde, hed] at h2
          · have hdeeq : d = e := le_antisymm (not_lt.1 hed) (not_lt.1 hde)
            subst hdeeq
            by_cases hcd : c < d
            · simp [charsLe, hcd]
            · by_cases hdc : d < c
              · simp [charsLe, hcd, hdc] at h1
              · have hcdeq : c = d := le_antisymm (not_lt.1 hdc) (not_lt.1 hcd)
                subst hcdeq
                simp [charsLe, lt_irrefl] at h1 h2 ⊢
                exact ih ds es h1 h2

instance : IsTotal String (fun a b => pyStrLe a b = true) :=
  ⟨fun a b => charsLe_total a.data b.data⟩

instance : IsTrans String (fun a b => pyStrLe a b = true) :=
  ⟨fun a b c => charsLe_trans a.data b.data c.data⟩

/-- The numeric value of a parsed `expected_return` field (0 outside the
validated domain; every use is guarded by validation). -/
def erVal (v : ViewD) : ℚ := match v.expected_return with | .val q => q | _ => 0

/-- The numeric value of a parsed `uncertainty` field (same guard). -/
def unVal (v : ViewD) : ℚ := match v.uncertainty with | .val q => q | _ => 0

/-- Refinement-side predicate, from the SPEC's words: the view references
ticker `t` (the absolute view's ticker, or a relative view's long or short
ticker). -/
def referencesTicker (v : ViewD) (t : String) : Prop :=
  (v.view_type = .val "absolute" ∧ v.ticker = .val t)
  ∨ (v.view_type = .val "relative" ∧ (v.long_ticker = .val t ∨ v.short_ticker = .val t))

/-- Refinement-side definition, from the SPEC's words: entry `(i, j)` of the
P matrix is zero except `column(t) = 1` for an absolute view on `t`, and
`column(long) = 1`, `column(short) = -1` for a relative view, where
`column(x)` is `x`'s position in the sorted ticker list. -/
def spec_p_entry (tickers : List String) (v : ViewD) (j : Nat) : ℚ :=
  if v.view_type = .val "absolute" then
    if tickers.indexOf (fdToStr v.ticker) = j then 1 else 0
  else
    if tickers.indexOf (fdToStr v.long_ticker) = j then 1
    else if tickers.indexOf (fdToStr v.short_ticker) = j then -1
    else 0

/-- The P-matrix row `processView` builds for one view. -/
def rowOf (tickers : List String) (v : ViewD) : List ℚ :=
  if v.view_type = .val "absolute" then
    (List.replicate tickers.length (0 : ℚ)).set (tickers.indexOf (fdToStr v.ticker)) 1
  else
    ((List.replicate tickers.length (0 : ℚ)).set
        (tickers.indexOf (fdToStr v.long_ticker)) 1).set
      (tickers.indexOf (fdToStr v.short_ticker)) (-1)

/-- The description sentence `processView` appends for one view. -/
def descOf (v : ViewD) : String :=
  if v.view_type = .val "absolute" then
    fdToStr v.ticker ++ " with expected return " ++ fmtPct1 (erVal v)
      ++ " due to " ++ fdToStr v.description ++ "."
  else
    fdToStr v.long_ticker ++ " outperforms " ++ fdToStr v.short_ticker ++ " by "
      ++ fmtPct1 (erVal v) ++ " due to " ++ fdToStr v.description ++ "."

/-- A view contributes exactly the tickers it references. -/
theorem mem_viewTickers_iff (v : ViewD) (t : String) :
    t ∈ viewTickers v ↔ referencesTicker v t := by
  unfold viewTickers referencesTicker
  by_cases hab : v.view_type = .val "absolute"
  · rw [if_pos hab]
    cases h : v.ticker <;> simp [hab, h, eq_comm]
  · rw [if_neg hab]
    by_cases hre : v.view_type = .val "relative"
    · rw [if_pos hre]
      cases h1 : v.long_ticker <;> cases h2 : v.short_ticker <;>
        simp [hab, hre, h1, h2] <;> tauto
    · rw [if_neg hre]
      simp [hab, hre]

/-- Unfolding the `collectTickers` fold. -/
theorem foldl_collectTickers (views : List ViewD) (acc : List String) :
    views.foldl (fun a v => a ++ viewTickers v) acc = acc ++ collectTickers views := by
  induction views generalizing acc with
  | nil => simp [collectTickers]
  | cons w ws ih =>
    show ws.foldl _ (acc ++ viewTickers w) = acc ++ collectTickers (w :: ws)
    rw [ih (acc ++ viewTickers w)]
    have h2 : collectTickers (w :: ws)
        = ws.foldl (fun a v => a ++ viewTickers v) ([] ++ viewTickers w) := rfl
    rw [h2, ih ([] ++ viewTickers w)]
    simp

/-- Membership in the collected ticker list. -/
theorem mem_collectTickers (views : List ViewD) (t : String) :
    t ∈ collectTickers views ↔ ∃ v ∈ views, t ∈ viewTickers v := by
  induction views with
  | nil => simp [collectTickers]
  | cons w ws ih =>
    have hc : collectTickers (w :: ws) = viewTickers w ++ collectTickers ws := by
      have h2 : collectTickers (w :: ws)
          = ws.foldl (fun a v => a ++ viewTickers v) ([] ++ viewTickers w) := rfl
      rw [h2, foldl_collectTickers ws ([] ++ viewTickers w)]
      simp
    rw [hc]
    simp [List.mem_append, ih]

/-- Membership in the sorted deduplicated ticker list. -/
theorem mem_sortedTickers (views : List ViewD) (t : String) :
    t ∈ sortedTickers views ↔ ∃ v ∈ views, referencesTicker v t := by
  unfold sortedTickers
  rw [(List.perm_insertionSort _ _).mem_iff, List.mem_dedup, mem_collectTickers]
  constructor
  · rintro ⟨v, hv, hm⟩
    exact ⟨v, hv, (mem_viewTickers_iff v t).1 hm⟩
  · rintro ⟨v, hv, hm⟩
    exact ⟨v, hv, (mem_viewTickers_iff v t).2 hm⟩

/-- The sorted ticker list is sorted and duplicate-free. -/
theorem sortedTickers_sorted_nodup (views : List ViewD) :
    List.Sorted (fun a b => pyStrLe a b = true) (sortedTickers views)
    ∧ (sortedTickers views).Nodup := by
  refine ⟨List.sorted_insertionSort _ _, ?_⟩
  exact (List.perm_insertionSort _ _).nodup_iff.2 (List.nodup_dedup _)

/-- A view that passed validation and whose referenced tickers are present
in the column list is processed without error, into its row, q-entry,
sigma-entry and description. -/
theorem processView_ok (tickers : List String) (i : Nat) (v : ViewD)
    (hv : validateViewSuffix v = none)
    (hmem : ∀ t ∈ viewTickers v, t ∈ tickers) :
    processView tickers i v
      = .ok (rowOf tickers v, erVal v, unVal v, descOf v) := by
  obtain ⟨hvt, ⟨er, her, _, _⟩, ⟨un, hun, hun1, hun2⟩, ⟨d, hd, _⟩, habs, hrel⟩ :=
    validateViewSuffix_none_props v hv
  rcases hvt with hab | hre
  · obtain ⟨t, ht, _⟩ := habs hab
    have htm : t ∈ tickers := hmem t (by simp [viewTickers, hab, ht])
    simp [processView, hab, her, hun, hd, ht, floatOf, fdToStr, htm,
      rowOf, erVal, unVal, descOf, hun1, hun2, Bind.bind, Except.bind]
    rfl
  · obtain ⟨lt, st, hlt, hst, _, _, hne⟩ := hrel hre
    have habs' : ¬ v.view_type = .val "absolute" := by simp [hre]
    have hltm : lt ∈ tickers := hmem lt (by simp [viewTickers, hre, hlt, hst])
    have hstm : st ∈ tickers := hmem st (by simp [viewTickers, hre, hlt, hst])
    simp [processView, hre, habs', her, hun, hd, hlt, hst, floatOf, fdToStr,
      hltm, hstm, hne, rowOf, erVal, unVal, descOf, hun1, hun2,
      Bind.bind, Except.bind]
    rfl

/-- The processing loop succeeds on a list of processable views. -/
theorem processAll_ok (tickers : List String) (views : List ViewD)
    (h : ∀ v ∈ views, ∀ i, processView tickers i v
      = .ok (rowOf tickers v, erVal v, unVal v, descOf v)) :
    ∀ i, processAll tickers i views
      = .ok (views.map (fun v => (rowOf tickers v, erVal v, unVal v, descOf v))) := by
  induction views with
  | nil => intro i; rfl
  | cons v rest ih =>
    intro i
    simp [processAll, h v (List.mem_cons_self _ _) i,
      ih (fun w hw => h w (List.mem_cons_of_mem _ hw)) (i + 1),
      Bind.bind, Except.bind]
    rfl

/-- A row has one entry per column. -/
theorem rowOf_length (tickers : List String) (v : ViewD) :
    (rowOf tickers v).length = tickers.length := by
  unfold rowOf
  split <;> simp

/-- Pointwise value of a built row: exactly the spec's description of the
P-matrix entries. -/
theorem rowOf_entry (tickers : List String) (v : ViewD) (j : Nat)
    (hj : j < tickers.length)
    (habs : v.view_type = .val "absolute" → fdToStr v.ticker ∈ tickers)
    (hrel : ¬ v.view_type = .val "absolute" →
      fdToStr v.long_ticker ∈ tickers ∧ fdToStr v.short_ticker ∈ tickers
      ∧ tickers.Nodup ∧ fdToStr v.long_ticker ≠ fdToStr v.short_ticker) :
    (rowOf tickers v).getD j 0 = spec_p_entry tickers v j := by
  unfold rowOf spec_p_entry
  by_cases hab : v.view_type = .val "absolute"
  · rw [if_pos hab, if_pos hab]
    have hm : tickers.indexOf (fdToStr v.ticker) < tickers.length :=
      List.indexOf_lt_length.2 (habs hab)
    have hlen : j < ((List.replicate tickers.length (0 : ℚ)).set
        (tickers.indexOf (fdToStr v.ticker)) 1).length := by
      simpa using hj
    rw [List.getD_eq_getElem?_getD, List.getElem?_eq_getElem hlen,
      Option.getD_some, List.getElem_set]
    by_cases he : tickers.indexOf (fdToStr v.ticker) = j
    · rw [if_pos he, if_pos he]
    · rw [if_neg he, if_neg he, List.getElem_replicate]
  · obtain ⟨hltm, hstm, hnd, hne⟩ := hrel hab
    rw [if_neg hab, if_neg hab]
    have hm1 : tickers.indexOf (fdToStr v.long_ticker) < tickers.length :=
      List.indexOf_lt_length.2 hltm
    have hm2 : tickers.indexOf (fdToStr v.short_ticker) < tickers.length :=
      List.indexOf_lt_length.2 hstm
    have hm12 : tickers.indexOf (fdToStr v.long_ticker)
        ≠ tickers.indexOf (fdToStr v.short_ticker) :=
      fun hc => hne ((List.indexOf_inj hltm hstm).1 hc)
    have hlen : j < (((List.replicate tickers.length (0 : ℚ)).set
        (tickers.indexOf (fdToStr v.long_ticker)) 1).set
        (tickers.indexOf (fdToStr v.short_ticker)) (-1)).length := by
      simpa using hj
    rw [List.getD_eq_getElem?_getD, List.getElem?_eq_getElem hlen,
      Option.getD_some, List.getElem_set]
    by_cases h2 : tickers.indexOf (fdToStr v.short_ticker) = j
    · rw [if_pos h2, if_neg (fun h1 => hm12 (h1.trans h2.symm)), if_pos h2]
    · rw [if_neg h2, List.getElem_set]
      by_cases h1 : tickers.indexOf (fdToStr v.long_ticker) = j
      · rw [if_pos h1, if_pos h1]
      · rw [if_neg h1, if_neg h1, if_neg h2, List.getElem_replicate]

/-- C1: on a fully validated view batch, `extract_bl_views` succeeds with a
nested `views_complete = true`; its `tickers` field is the set of tickers
referenced across the views, duplicate-free and sorted lexicographically;
`q_vector`/`sigma_vector` list each view's expected return/uncertainty in
view order; `p_matrix` has one row per view and one column per ticker, and
each entry matches the spec's description (`spec_p_entry`): zero except 1
at an absolute view's ticker column, and 1 / -1 at a relative view's
long/short columns. -/
theorem extract_bl_views_valid_conversion (views : List ViewD)
    (hval : (_validate_bl_views views).1 = true) :
    ∃ bl : BLViewsPayload,
      extract_bl_views views = ExtractBLResult.ok bl
      ∧ bl.views_complete = true
      ∧ List.Sorted (fun a b => pyStrLe a b = true) bl.result.tickers
      ∧ bl.result.tickers.Nodup
      ∧ (∀ t, t ∈ bl.result.tickers ↔ ∃ v ∈ views, referencesTicker v t)
      ∧ bl.result.q_vector = views.map erVal
      ∧ bl.result.sigma_vector = views.map unVal
      ∧ bl.result.p_matrix.length = views.length
      ∧ (∀ i, ∀ hi : i < views.length,
          (bl.result.p_matrix.getD i []).length = bl.result.tickers.length
          ∧ ∀ j, j < bl.result.tickers.length →
            (bl.result.p_matrix.getD i []).getD j 0
              = spec_p_entry bl.result.tickers (views.get ⟨i, hi⟩) j) := by
  have hne : views ≠ [] := by
    intro h
    subst h
    simp [_validate_bl_views] at hval
  have hgo : goValidate 0 views = none := by
    cases hg : goValidate 0 views with
    | none => rfl
    | some m =>
      unfold _validate_bl_views at hval
      rw [if_neg hne, hg] at hval
      simp at hval
  have hall : ∀ v ∈ views, validateViewSuffix v = none :=
    goValidate_none_all views 0 hgo
  have hTprops := sortedTickers_sorted_nodup views
  have hmemT : ∀ v ∈ views, ∀ t ∈ viewTickers v, t ∈ sortedTickers views := by
    intro v hv t ht
    rw [mem_sortedTickers]
    exact ⟨v, hv, (mem_viewTickers_iff v t).1 ht⟩
  have hpv : ∀ v ∈ views, ∀ i, processView (sortedTickers views) i v
      = .ok (rowOf (sortedTickers views) v, erVal v, unVal v, descOf v) :=
    fun v hv i => processView_ok _ i v (hall v hv) (hmemT v hv)
  have hpa := processAll_ok (sortedTickers views) views hpv 0
  have hproc : _process_bl_views views = .ok
      { p_matrix := views.map (rowOf (sortedTickers views)),
        q_vector := views.map erVal,
        sigma_vector := views.map unVal,
        explanation := String.intercalate "; " (views.map descOf),
        tickers := sortedTickers views } := by
    unfold _process_bl_views
    simp [hne, hpa, Bind.bind, Except.bind, List.map_map, Function.comp]
    rfl
  have hvpair : _validate_bl_views views = (true, "") := by
    unfold _validate_bl_views
    rw [if_neg hne, hgo]
  refine ⟨⟨({ p_matrix := views.map (rowOf (sortedTickers views)),
              q_vector := views.map erVal,
              sigma_vector := views.map unVal,
              explanation := String.intercalate "; " (views.map descOf),
              tickers := sortedTickers views } : BLResult), true⟩,
    ?_, rfl, hTprops.1, hTprops.2,
    mem_sortedTickers views, rfl, rfl, by simp, ?_⟩
  · unfold extract_bl_views
    rw [hvpair, hproc]
  · intro i hi
    have hget : (List.map (rowOf (sortedTickers views)) views).getD i []
        = rowOf (sortedTickers views) (views.get ⟨i, hi⟩) := by
      rw [List.getD_eq_getElem?_getD,
        List.getElem?_eq_getElem (by simpa using hi), Option.getD_some,
        List.getElem_map]
      rfl
    have hv := views.get_mem i hi
    have props := validateViewSuffix_none_props _ (hall _ hv)
    constructor
    · rw [hget, rowOf_length]
    · intro j hj
      rw [hget]
      refine rowOf_entry _ _ j hj ?_ ?_
      · intro hab
        obtain ⟨t, ht, _⟩ := props.2.2.2.2.1 hab
        rw [ht]
        exact hmemT _ hv t (by unfold viewTickers; rw [if_pos hab, ht]; simp)
      · intro hab
        have hre : (views.get ⟨i, hi⟩).view_type = .val "relative" := by
          rcases props.1 with h | h
          · exact absurd h hab
          · exact h
        obtain ⟨lt, st, hlt, hst, _, _, hnelt⟩ := props.2.2.2.2.2 hre
        have hltm : lt ∈ viewTickers (views.get ⟨i, hi⟩) := by
          unfold viewTickers
          rw [if_neg hab, if_pos hre, hlt, hst]
          simp
        have hstm : st ∈ viewTickers (views.get ⟨i, hi⟩) := by
          unfold viewTickers
          rw [if_neg hab, if_pos hre, hlt, hst]
          simp
        refine ⟨?_, ?_, hTprops.2, ?_⟩
        · rw [hlt]
          exact hmemT _ hv lt hltm
        · rw [hst]
          exact hmemT _ hv st hstm
        · rw [hlt, hst]
          exact fun hc => hnelt hc
/-- The spec's concrete absolute view: "AAA", return 0.10, uncertainty 0.01. -/
def viewAbs10 : ViewD :=
  { view_type := .val "absolute", ticker := .val "AAA",
    expected_return := .val (mkRat 1 10), uncertainty := .val (mkRat 1 100),
    description := .val "growth" }

/-- The spec's concrete relative view: long "AAA", short "BBB", return 0.05,
uncertainty 0.02. -/
def viewRel05 : ViewD :=
  { view_type := .val "relative", long_ticker := .val "AAA",
    short_ticker := .val "BBB", expected_return := .val (mkRat 1 20),
    uncertainty := .val (mkRat 1 50), description := .val "pair" }

/-- Witness for C1 at the spec's two-view input: validation passes, the
theorem applies, and the concrete payload is exactly the spec's example —
columns `["AAA", "BBB"]`, `p_matrix = [[1, 0], [1, -1]]`,
`q_vector = [0.10, 0.05]`, `sigma_vector = [0.01, 0.02]`. -/
theorem extract_bl_views_valid_conversion_witness :
    (_validate_bl_views [viewAbs10, viewRel05]).1 = true
    ∧ (∃ bl, extract_bl_views [viewAbs10, viewRel05] = ExtractBLResult.ok bl
        ∧ bl.views_complete = true)
    ∧ extract_bl_views [viewAbs10, viewRel05] = ExtractBLResult.ok
        ⟨⟨[[1, 0], [1, -1]], [mkRat 1 10, mkRat 1 20], [mkRat 1 100, mkRat 1 50],
          "AAA with expected return 10% due to growth.; AAA outperforms BBB by 5% due to pair.",
          ["AAA", "BBB"]⟩, true⟩ := by
  refine ⟨by decide, ?_, by decide⟩
  obtain ⟨bl, hbl, hc, _⟩ :=
    extract_bl_views_valid_conversion [viewAbs10, viewRel05] (by decide)
  exact ⟨bl, hbl, hc⟩

/-! ## `calculate_financial_indicators` (finance_tools.py, lines 76-189) and
`calculate_adx` (lines 192-219)

A pandas value is `Val := Option ℚ`: `none` stands for any non-finite float
(`NaN`, `±inf`) — these are never compared in any claim; a pandas Series is
`List Val`; the input price list is clean (`List ℚ`).  `np.sqrt` is the
oracle `sqrtO` (the irrational square root has no exact rational).  Vector
(Series) arithmetic never raises — division by zero or a non-finite operand
yields a non-finite value; scalar Python float division by zero raises
`ZeroDivisionError`; out-of-range `iloc` raises `IndexError`.  Python's
`round(x, 2)` is modelled as exact rounding of the rational (`round2q`);
rounded values are never compared in any claim.

The source computes all indicators sequentially inside ONE `try` block,
assigning one dict key per statement; the statements are modelled as the
named step functions below, run in source order by `runSteps` with the
single `except` appending the `Error` key.  Statements that reuse a local
intermediate (e.g. `macd_line`, `stochastic_k`) recompute it in their step;
the intermediates are pure functions of the prices, so the values are
unchanged. -/

/-- A pandas cell: a finite float as an exact rational, or non-finite. -/
abbrev Val := Option ℚ

/-- NaN-propagating binary arithmetic on cells. -/
def vBin (f : ℚ → ℚ → ℚ) : Val → Val → Val
  | some a, some b => some (f a b)
  | _, _ => none

/-- Series (vectorized) division: zero or non-finite divisor yields a
non-finite cell, never an exception. -/
def vDivS : Val → Val → Val
  | some a, some b => if b = 0 then none else some (a / b)
  | _, _ => none

/-- Scalar Python float division: a zero divisor raises
`ZeroDivisionError`; a NaN divisor or numerand propagates. -/
def pyDivF (a b : Val) : Except String Val :=
  match b with
  | some bq =>
    if bq = 0 then Except.error "float division by zero"
    else match a with
      | some aq => Except.ok (some (aq / bq))
      | none => Except.ok none
  | none => Except.ok none

/-- `round(x, 2)` on an exact rational (the float's banker rounding is
modelled as exact half-up rounding; no claim compares rounded values). -/
def round2q (q : ℚ) : ℚ := ((q * 100 + 1/2).floor : ℚ) / 100

/-- `round(x, 2)` on a cell. -/
def round2V : Val → Val := Option.map round2q

/-- `Series.diff()`: leading NaN, then pairwise differences. -/
def sDiff (s : List Val) : List Val :=
  match s with
  | [] => []
  | _ => none :: List.zipWith (vBin (fun a b => a - b)) s.tail s

/-- `Series.pct_change()`: leading NaN, then `cur/prev - 1`. -/
def pctChange (s : List Val) : List Val :=
  match s with
  | [] => []
  | _ => none :: List.zipWith
      (fun c p => vBin (fun a b => a - b) (vDivS c p) (some 1)) s.tail s

/-- `Series.rolling(w).<agg>()`: NaN before the window fills or when the
window holds a NaN (pandas requires `w` non-null observations by default),
else the aggregate of the window. -/
def rollingAgg (agg : List ℚ → Val) (w : Nat) (s : List Val) : List Val :=
  (List.range s.length).map (fun i =>
    if i + 1 < w then none
    else match ((s.take (i + 1)).drop (i + 1 - w)).mapM id with
      | some vals => agg vals
      | none => none)

/-- Mean of a (non-empty) window. -/
def aggMean (vals : List ℚ) : Val := some (vals.sum / vals.length)

/-- Sample standard deviation (`ddof = 1`) of a window. -/
def aggStd (sqrtO : ℚ → ℚ) (vals : List ℚ) : Val :=
  if vals.length < 2 then none
  else some (sqrtO
    ((vals.map (fun x => (x - vals.sum / vals.length) * (x - vals.sum / vals.length))).sum
      / (vals.length - 1)))

/-- Max of a window. -/
def aggMax (vals : List ℚ) : Val :=
  match vals with
  | [] => none
  | x :: xs => some (xs.foldl max x)

/-- Min of a window. -/
def aggMin (vals : List ℚ) : Val :=
  match vals with
  | [] => none
  | x :: xs => some (xs.foldl min x)

/-- `Series.rolling(w).mean()`. -/
def rollingMean (w : Nat) (s : List Val) : List Val := rollingAgg aggMean w s

/-- `Series.rolling(w).std()`. -/
def rollingStd (sqrtO : ℚ → ℚ) (w : Nat) (s : List Val) : List Val :=
  rollingAgg (aggStd sqrtO) w s

/-- `Series.rolling(w).sum()`. -/
def rollingSum (w : Nat) (s : List Val) : List Val :=
  rollingAgg (fun vals => some vals.sum) w s

/-- `Series.rolling(w).max()`. -/
def rollingMax (w : Nat) (s : List Val) : List Val := rollingAgg aggMax w s

/-- `Series.rolling(w).min()`. -/
def rollingMin (w : Nat) (s : List Val) : List Val := rollingAgg aggMin w s

/-- `Series.ewm(span, adjust=False).mean()`: `y0 = x0`,
`y_t = (1-α) y_(t-1) + α x_t`, `α = 2/(span+1)`.  (The NaN-input behavior
is unused: every ewm in the source runs on a NaN-free series.) -/
def ewmGo (a : ℚ) : Val → List Val → List Val
  | _, [] => []
  | none, x :: xs => x :: ewmGo a x xs
  | some p, x :: xs =>
    let y := vBin (fun pv xv => (1 - a) * pv + a * xv) (some p) x
    y :: ewmGo a y xs

/-- `Series.ewm(span=n, adjust=False).mean()`. -/
def ewmMean (span : Nat) (s : List Val) : List Val :=
  ewmGo (2 / (span + 1 : ℚ)) none s

/-- `Series.expanding().max()` (running maximum, skipping NaN). -/
def expandingMax : Val → List Val → List Val
  | _, [] => []
  | acc, x :: xs =>
    let m := match acc, x with
      | none, _ => x
      | some a, some b => some (max a b)
      | some a, none => some a
    m :: expandingMax m xs

/-- `Series.min()` (skips NaN; NaN when nothing remains). -/
def seriesMin (s : List Val) : Val :=
  match s.filterMap id with
  | [] => none
  | x :: xs => some (xs.foldl min x)

/-- `Series.iloc[-k]` (`k ≥ 1`): raises `IndexError` out of range. -/
def ilocNeg (k : Nat) (s : List Val) : Except String Val :=
  if 0 < k ∧ k ≤ s.length then Except.ok (s.getD (s.length - k) none)
  else Except.error "single positional indexer is out-of-bounds"

/-- A value stored in the indicators dict. -/
inductive IndVal where
  | num (v : Val)
  | bool (b : Bool)
  | pynone
  | str (s : String)
deriving DecidableEq

/-- The indicators dict, in insertion order. -/
abbrev IndDict := List (String × IndVal)

/-- Read a numeric entry of the indicators dict (every in-source read hits
a key written by an earlier statement). -/
def dget (d : IndDict) (k : String) : Val :=
  match d.lookup k with
  | some (IndVal.num v) => v
  | _ => none

/-- `nan > nan` is false in Python; so is any comparison with NaN. -/
def vGt : Val → Val → Bool
  | some a, some b => decide (b < a)
  | _, _ => false

/-- See `vGt`. -/
def vLt : Val → Val → Bool
  | some a, some b => decide (a < b)
  | _, _ => false

/-- The input price list as a pandas Series (line 90). -/
def pSeries (cp : List ℚ) : List Val := cp.map some

/-- Line 96: `SMA_20`. -/
def stepSMA20 (cp : List ℚ) (_ : IndDict) : Except String IndVal := do
  let v ← ilocNeg 1 (rollingMean 20 (pSeries cp))
  pure (.num (round2V v))

/-- Line 97: `SMA_50`. -/
def stepSMA50 (cp : List ℚ) (_ : IndDict) : Except String IndVal := do
  let v ← ilocNeg 1 (rollingMean 50 (pSeries cp))
  pure (.num (round2V v))

/-- Line 98: `EMA_20`. -/
def stepEMA20 (cp : List ℚ) (_ : IndDict) : Except String IndVal := do
  let v ← ilocNeg 1 (ewmMean 20 (pSeries cp))
  pure (.num (round2V v))

/-- Line 99: `EMA_50`. -/
def stepEMA50 (cp : List ℚ) (_ : IndDict) : Except String IndVal := do
  let v ← ilocNeg 1 (ewmMean 50 (pSeries cp))
  pure (.num (round2V v))

/-- Lines 102-106: `RSI` — gains/losses from day differences (negatives
resp. positives masked to zero by `where`, which also zeroes the leading
NaN), 14-period average gain over average loss, `100 - 100/(1+rs)`. -/
def stepRSI (cp : List ℚ) (_ : IndDict) : Except String IndVal := do
  let delta := sDiff (pSeries cp)
  let gain := rollingMean 14 (delta.map (fun v => match v with
    | some x => if 0 < x then some x else some 0
    | none => some 0))
  let loss := rollingMean 14 (delta.map (fun v => match v with
    | some x => if x < 0 then some (-x) else some 0
    | none => some 0))
  let rs := List.zipWith vDivS gain loss
  let v ← ilocNeg 1 (rs.map (fun r =>
    vBin (fun a b => a - b) (some 100)
      (vDivS (some 100) (vBin (fun a b => a + b) (some 1) r))))
  pure (.num (round2V v))

/-- Lines 109-113: `MACD` = EMA(12) - EMA(26), unrounded. -/
def stepMACD (cp : List ℚ) (_ : IndDict) : Except String IndVal := do
  let macd_line := List.zipWith (vBin (fun a b => a - b))
    (ewmMean 12 (pSeries cp)) (ewmMean 26 (pSeries cp))
  let v ← ilocNeg 1 macd_line
  pure (.num v)

/-- Line 114: `MACD_Signal` = EMA(9) of the MACD line. -/
def stepMACDSignal (cp : List ℚ) (_ : IndDict) : Except String IndVal := do
  let macd_line := List.zipWith (vBin (fun a b => a - b))
    (ewmMean 12 (pSeries cp)) (ewmMean 26 (pSeries cp))
  let v ← ilocNeg 1 (ewmMean 9 macd_line)
  pure (.num v)

/-- Line 115: `MACD_Histogram` = MACD - signal. -/
def stepMACDHistogram (cp : List ℚ) (_ : IndDict) : Except String IndVal := do
  let macd_line := List.zipWith (vBin (fun a b => a - b))
    (ewmMean 12 (pSeries cp)) (ewmMean 26 (pSeries cp))
  let v ← ilocNeg 1 (List.zipWith (vBin (fun a b => a - b))
    macd_line (ewmMean 9 macd_line))
  pure (.num v)

/-- Lines 126-129: `Volatility_20d` — rolling std of daily returns,
annualized by `√252`. -/
def stepVol20 (sqrtO : ℚ → ℚ) (cp : List ℚ) (_ : IndDict) : Except String IndVal := do
  let v ← ilocNeg 1 ((rollingStd sqrtO 20 (pctChange (pSeries cp))).map
    (fun x => vBin (fun a b => a * b) x (some (sqrtO 252))))
  pure (.num (round2V v))

/-- Line 130: `Volatility_50d`. -/
def stepVol50 (sqrtO : ℚ → ℚ) (cp : List ℚ) (_ : IndDict) : Except String IndVal := do
  let v ← ilocNeg 1 ((rollingStd sqrtO 50 (pctChange (pSeries cp))).map
    (fun x => vBin (fun a b => a * b) x (some (sqrtO 252))))
  pure (.num (round2V v))

/-- Line 131: `Current_Volatility` aliases the stored 20-day value. -/
def stepCurrentVol (d : IndDict) : Except String IndVal :=
  pure (.num (dget d "Volatility_20d"))

/-- Line 135: `ROC_20d` = `(price[-1] - price[-20]) / price[-20] * 100`. -/
def stepROC20 (cp : List ℚ) (_ : IndDict) : Except String IndVal := do
  let last ← ilocNeg 1 (pSeries cp)
  let prev ← ilocNeg 20 (pSeries cp)
  let q ← pyDivF (vBin (fun a b => a - b) last prev) prev
  pure (.num (round2V (vBin (fun a b => a * b) q (some 100))))

/-- Line 139: `Momentum_20d` = `price[-1] - price[-20]`. -/
def stepMomentum20 (cp : List ℚ) (_ : IndDict) : Except String IndVal := do
  let last ← ilocNeg 1 (pSeries cp)
  let prev ← ilocNeg 20 (pSeries cp)
  pure (.num (round2V (vBin (fun a b => a - b) last prev)))

/-- Line 142: `Mean_Price` (mean of an empty Series is NaN, no raise). -/
def stepMeanPrice (cp : List ℚ) (_ : IndDict) : Except String IndVal :=
  pure (.num (if cp.isEmpty then none
    else some (round2q (cp.sum / cp.length))))

/-- Line 143: `Std_Dev` (sample std of the whole series). -/
def stepStdDev (sqrtO : ℚ → ℚ) (cp : List ℚ) (_ : IndDict) : Except String IndVal :=
  pure (.num (round2V (aggStd sqrtO cp)))

/-- Line 144: `Coefficient_Variation` = `Std_Dev / Mean_Price` — a plain
float division: a zero mean raises `ZeroDivisionError`. -/
def stepCoefVar (d : IndDict) : Except String IndVal := do
  let q ← pyDivF (dget d "Std_Dev") (dget d "Mean_Price")
  pure (.num (round2V q))

/-- Line 149: `Resistance_20d` = rolling 20-period max. -/
def stepResistance20 (cp : List ℚ) (_ : IndDict) : Except String IndVal := do
  let v ← ilocNeg 1 (rollingMax 20 (pSeries cp))
  pure (.num (round2V v))

/-- Line 150: `Support_20d` = rolling 20-period min. -/
def stepSupport20 (cp : List ℚ) (_ : IndDict) : Except String IndVal := do
  let v ← ilocNeg 1 (rollingMin 20 (pSeries cp))
  pure (.num (round2V v))

/-- Lines 157-159: `Max_Drawdown` = `min(prices/expanding_max - 1) * 100`. -/
def stepMaxDrawdown (cp : List ℚ) (_ : IndDict) : Except String IndVal :=
  let drawdown := List.zipWith
    (fun p m => vBin (fun a b => a - b) (vDivS p m) (some 1))
    (pSeries cp) (expandingMax none (pSeries cp))
  pure (.num (round2V (vBin (fun a b => a * b) (seriesMin drawdown) (some 100))))

/-- Line 162: `Golden_Cross` = `SMA_20 > SMA_50` (false on NaN). -/
def stepGoldenCross (d : IndDict) : Except String IndVal :=
  pure (.bool (vGt (dget d "SMA_20") (dget d "SMA_50")))

/-- Line 163: `Death_Cross` = `SMA_20 < SMA_50`. -/
def stepDeathCross (d : IndDict) : Except String IndVal :=
  pure (.bool (vLt (dget d "SMA_20") (dget d "SMA_50")))

/-- Line 166: `Price_vs_SMA20` — scalar float division by the stored
SMA(20): zero SMA raises. -/
def stepPriceVsSMA20 (cp : List ℚ) (d : IndDict) : Except String IndVal := do
  let last ← ilocNeg 1 (pSeries cp)
  let q ← pyDivF (vBin (fun a b => a - b) last (dget d "SMA_20")) (dget d "SMA_20")
  pure (.num (round2V (vBin (fun a b => a * b) q (some 100))))

/-- Line 167: `Price_vs_SMA50`. -/
def stepPriceVsSMA50 (cp : List ℚ) (d : IndDict) : Except String IndVal := do
  let last ← ilocNeg 1 (pSeries cp)
  let q ← pyDivF (vBin (fun a b => a - b) last (dget d "SMA_50")) (dget d "SMA_50")
  pure (.num (round2V (vBin (fun a b => a * b) q (some 100))))

/-- Lines 170-173: `Stochastic_K_Current` =
`100 (price - low14)/(high14 - low14)` at the last position. -/
def stepStochK (cp : List ℚ) (_ : IndDict) : Except String IndVal := do
  let prices := pSeries cp
  let stochastic_k := List.zipWith vDivS
    (List.zipWith (vBin (fun a b => a - b)) prices (rollingMin 14 prices))
    (List.zipWith (vBin (fun a b => a - b)) (rollingMax 14 prices) (rollingMin 14 prices))
  let v ← ilocNeg 1 (stochastic_k.map (fun x => vBin (fun a b => a * b) (some 100) x))
  pure (.num (round2V v))

/-- Line 174: `Stochastic_D` = 3-period mean of %K. -/
def stepStochD (cp : List ℚ) (_ : IndDict) : Except String IndVal := do
  let prices := pSeries cp
  let stochastic_k := (List.zipWith vDivS
    (List.zipWith (vBin (fun a b => a - b)) prices (rollingMin 14 prices))
    (List.zipWith (vBin (fun a b => a - b)) (rollingMax 14 prices)
      (rollingMin 14 prices))).map (fun x => vBin (fun a b => a * b) (some 100) x)
  let v ← ilocNeg 1 (rollingMean 3 stochastic_k)
  pure (.num (round2V v))

/-- Line 180: `Price_Change_20d` (same expression as `ROC_20d`). -/
def stepPriceChange20 (cp : List ℚ) (_ : IndDict) : Except String IndVal := do
  let last ← ilocNeg 1 (pSeries cp)
  let prev ← ilocNeg 20 (pSeries cp)
  let q ← pyDivF (vBin (fun a b => a - b) last prev) prev
  pure (.num (round2V (vBin (fun a b => a * b) q (some 100))))

/-- `calculate_adx` (lines 192-219): the closing-price series stands in
for both high and low; directional moves are day differences with the
opposite sign masked to zero (NaN kept); true-range proxy is the summed
absolute difference; its own `try` turns the only possible raise
(`iloc[-1]` on an empty series) into `None`. -/
def calculate_adx (prices : List Val) (period : Nat) : Option Val :=
  let plus_dm := (sDiff prices).map (fun v => match v with
    | some x => if x < 0 then some 0 else some x
    | none => none)
  let minus_dm := (sDiff prices).map (fun v => match v with
    | some x => if 0 < x then some 0 else some x
    | none => none)
  let tr := rollingSum period ((sDiff prices).map (Option.map abs))
  let plus_di := (List.zipWith vDivS (rollingSum period plus_dm) tr).map
    (fun x => vBin (fun a b => a * b) (some 100) x)
  let minus_di := (List.zipWith vDivS
      ((rollingSum period minus_dm).map (Option.map abs)) tr).map
    (fun x => vBin (fun a b => a * b) (some 100) x)
  let dx := (List.zipWith vDivS
      ((List.zipWith (vBin (fun a b => a - b)) plus_di minus_di).map (Option.map abs))
      (List.zipWith (vBin (fun a b => a + b)) plus_di minus_di)).map
    (fun x => vBin (fun a b => a * b) (some 100) x)
  match ilocNeg 1 (rollingMean period dx) with
  | .ok v => some v
  | .error _ => none

/-- Lines 183-184: `ADX`, `None` when `calculate_adx` degraded. -/
def stepADX (cp : List ℚ) (_ : IndDict) : Except String IndVal :=
  pure (match calculate_adx (pSeries cp) 14 with
    | none => IndVal.pynone
    | some v => IndVal.num (round2V v))

/-- The statements of the `try` block of `calculate_financial_indicators`,
in source order, keyed by the dict key each assigns. -/
def indicatorSteps (sqrtO : ℚ → ℚ) (cp : List ℚ) :
    List (String × (IndDict → Except String IndVal)) :=
  [("SMA_20", stepSMA20 cp), ("SMA_50", stepSMA50 cp),
   ("EMA_20", stepEMA20 cp), ("EMA_50", stepEMA50 cp),
   ("RSI", stepRSI cp), ("MACD", stepMACD cp),
   ("MACD_Signal", stepMACDSignal cp), ("MACD_Histogram", stepMACDHistogram cp),
   ("Volatility_20d", stepVol20 sqrtO cp), ("Volatility_50d", stepVol50 sqrtO cp),
   ("Current_Volatility", stepCurrentVol), ("ROC_20d", stepROC20 cp),
   ("Momentum_20d", stepMomentum20 cp), ("Mean_Price", stepMeanPrice cp),
   ("Std_Dev", stepStdDev sqrtO cp), ("Coefficient_Variation", stepCoefVar),
   ("Resistance_20d", stepResistance20 cp), ("Support_20d", stepSupport20 cp),
   ("Max_Drawdown", stepMaxDrawdown cp), ("Golden_Cross", stepGoldenCross),
   ("Death_Cross", stepDeathCross), ("Price_vs_SMA20", stepPriceVsSMA20 cp),
   ("Price_vs_SMA50", stepPriceVsSMA50 cp), ("Stochastic_K_Current", stepStochK cp),
   ("Stochastic_D", stepStochD cp), ("Price_Change_20d", stepPriceChange20 cp),
   ("ADX", stepADX cp)]

/-- The single `try`/`except` of lines 94-187: statements run in order,
the first raise aborts the remaining statements, and the handler appends
the `Error` key with `str(e)`. -/
def runSteps : List (String × (IndDict → Except String IndVal)) → IndDict → IndDict
  | [], acc => acc
  | (k, f) :: rest, acc =>
    match f acc with
    | .ok v => runSteps rest (acc ++ [(k, v)])
    | .error e => acc ++ [("Error", IndVal.str e)]

/-- `calculate_financial_indicators` (lines 76-189).  The `ticker` argument
is unused by the source as well. -/
def calculate_financial_indicators (sqrtO : ℚ → ℚ) (closing_prices : List ℚ)
    (ticker : String) : IndDict :=
  runSteps (indicatorSteps sqrtO closing_prices) []

/-- Refinement-side runner, from the SPEC's words: each indicator
"independently guarded, so a failure in one does not block the rest" — a
failing statement is skipped and every remaining statement still runs. -/
def runStepsIndependent :
    List (String × (IndDict → Except String IndVal)) → IndDict → IndDict
  | [], acc => acc
  | (k, f) :: rest, acc =>
    match f acc with
    | .ok v => runStepsIndependent rest (acc ++ [(k, v)])
    | .error _ => runStepsIndependent rest acc

/-- Equality of step outcomes is decidable (used only to evaluate the
model at concrete inputs). -/
instance {e a : Type} [DecidableEq e] [DecidableEq a] : DecidableEq (Except e a)
  | .ok x, .ok y =>
    if h : x = y then .isTrue (h ▸ rfl) else .isFalse (fun hc => h (Except.ok.inj hc))
  | .error x, .error y =>
    if h : x = y then .isTrue (h ▸ rfl) else .isFalse (fun hc => h (Except.error.inj hc))
  | .ok _, .error _ => .isFalse (fun hc => Except.noConfusion hc)
  | .error _, .ok _ => .isFalse (fun hc => Except.noConfusion hc)

/-- Decidable "every statement of this prefix succeeds" (threading the
growing dict exactly as `runSteps` does). -/
def allOkB : List (String × (IndDict → Except String IndVal)) → IndDict → Bool
  | [], _ => true
  | (k, f) :: rest, acc =>
    match f acc with
    | .ok v => allOkB rest (acc ++ [(k, v)])
    | .error _ => false

/-- After a successful prefix, the first failing statement ends the run:
the result is the prefix's dict plus the `Error` key, whatever statements
(computable or not) follow. -/
theorem runSteps_failure (pre : List (String × (IndDict → Except String IndVal)))
    (acc : IndDict) (h : allOkB pre acc = true) (k : String)
    (f : IndDict → Except String IndVal) (e : String)
    (hf : f (runSteps pre acc) = Except.error e)
    (post : List (String × (IndDict → Except String IndVal))) :
    runSteps (pre ++ (k, f) :: post) acc
      = runSteps pre acc ++ [("Error", IndVal.str e)] := by
  induction pre generalizing acc with
  | nil =>
    simp only [runSteps, List.nil_append] at hf ⊢
    rw [hf]
  | cons s rest ih =>
    obtain ⟨k1, f1⟩ := s
    cases hs : f1 acc with
    | ok v =>
      have h' : allOkB rest (acc ++ [(k1, v)]) = true := by
        simpa [allOkB, hs] using h
      have hf' : f (runSteps rest (acc ++ [(k1, v)])) = Except.error e := by
        simpa [runSteps, hs] using hf
      calc runSteps (((k1, f1) :: rest) ++ (k, f) :: post) acc
          = runSteps (rest ++ (k, f) :: post) (acc ++ [(k1, v)]) := by
            rw [List.cons_append]
            simp [runSteps, hs]
        _ = runSteps rest (acc ++ [(k1, v)]) ++ [("Error", IndVal.str e)] :=
            ih (acc ++ [(k1, v)]) h' hf'
        _ = runSteps ((k1, f1) :: rest) acc ++ [("Error", IndVal.str e)] := by
            simp [runSteps, hs]
    | error e1 => simp [allOkB, hs] at h

/-- C5 (amended): the indicator statements share ONE guard.  When the
statements up to some point all succeed and the next one raises,
`calculate_financial_indicators` returns exactly the successful prefix's
entries followed by the `Error` key — every later indicator is absent,
independently of whether it would have been computable (the trailing
statements are irrelevant to the result). -/
theorem calculate_financial_indicators_single_guard
    (sqrtO : ℚ → ℚ) (cp : List ℚ) (ticker : String)
    (pre post : List (String × (IndDict → Except String IndVal)))
    (k : String) (f : IndDict → Except String IndVal) (e : String)
    (hsplit : indicatorSteps sqrtO cp = pre ++ (k, f) :: post)
    (hpre : allOkB pre [] = true)
    (hf : f (runSteps pre []) = Except.error e) :
    calculate_financial_indicators sqrtO cp ticker
      = runSteps pre [] ++ [("Error", IndVal.str e)]
    ∧ (∀ post2, runSteps (pre ++ (k, f) :: post2) []
        = runSteps pre [] ++ [("Error", IndVal.str e)])
    ∧ ("Error", IndVal.str e) ∈ calculate_financial_indicators sqrtO cp ticker := by
  have hmain : ∀ post2, runSteps (pre ++ (k, f) :: post2) []
      = runSteps pre [] ++ [("Error", IndVal.str e)] :=
    fun post2 => runSteps_failure pre [] hpre k f e hf post2
  have hcalc : calculate_financial_indicators sqrtO cp ticker
      = runSteps pre [] ++ [("Error", IndVal.str e)] := by
    unfold calculate_financial_indicators
    rw [hsplit]
    exact hmain post
  exact ⟨hcalc, hmain, by rw [hcalc]; simp⟩

/-- The spec's failing series for C5: five prices, enough for every
whole-series statistic but short of the 20-observation lookback. -/
def c5Prices : List ℚ := [1, 2, 3, 4, 5]

/-- The statements before `ROC_20d` on the failing series. -/
def c5Pre : List (String × (IndDict → Except String IndVal)) :=
  (indicatorSteps (fun _ => 0) c5Prices).take 11

/-- C5 counterexample: the claim fails as stated.  On `[1, 2, 3, 4, 5]`
the `ROC_20d` statement raises `IndexError` (`iloc[-20]` on 5 rows), and
because all statements share one `try`, every LATER indicator is missing
from the returned mapping even when it is computable on this series:
`Mean_Price` (the statement succeeds, mean 3.0) does not appear, while the
mapping holds exactly the pre-`ROC_20d` indicators plus the `Error` key. -/
theorem calculate_financial_indicators_not_independent :
    ((calculate_financial_indicators (fun _ => 0) c5Prices "TST").map Prod.fst
      = ["SMA_20", "SMA_50", "EMA_20", "EMA_50", "RSI", "MACD", "MACD_Signal",
         "MACD_Histogram", "Volatility_20d", "Volatility_50d",
         "Current_Volatility", "Error"])
    ∧ (calculate_financial_indicators (fun _ => 0) c5Prices "TST").lookup "Mean_Price"
        = none
    ∧ (stepMeanPrice c5Prices (runSteps c5Pre [])).isOk = true
    ∧ (stepROC20 c5Prices (runSteps c5Pre [])).isOk = false := by
  exact ⟨by decide, by decide, by decide, by decide⟩

/-- Witness for C5 (amended) on the failing series: the 11 statements
before `ROC_20d` all succeed, `ROC_20d` raises, and the returned mapping
is exactly that prefix plus the `Error` key. -/
theorem calculate_financial_indicators_single_guard_witness :
    allOkB c5Pre [] = true
    ∧ stepROC20 c5Prices (runSteps c5Pre [])
        = Except.error "single positional indexer is out-of-bounds"
    ∧ calculate_financial_indicators (fun _ => 0) c5Prices "TST"
        = runSteps c5Pre []
          ++ [("Error", IndVal.str "single positional indexer is out-of-bounds")] :=
  ⟨by decide, by decide,
   (calculate_financial_indicators_single_guard (fun _ => 0) c5Prices "TST"
      c5Pre ((indicatorSteps (fun _ => 0) c5Prices).drop 12) "ROC_20d"
      (stepROC20 c5Prices) "single positional indexer is out-of-bounds"
      rfl (by decide) (by decide)).1⟩

end VibeTrader
